import Mathlib

/-!
Verification of the zotero-notion-sync reconciliation logic.

This file gives a shallow embedding of `src/zotero_notion_sync/zotero_to_notion.py`
(class `ZoteroToNotion`) together with the pieces of
`src/zotero_notion_sync/decorators.py` the claims refer to, and settles the
frozen claims against it.

Modelling conventions:
* A Python string is modelled as `List Char` (`PyStr`).  Python `len`,
  slicing, `in` and `+` become `List.length`, `List.take`, `List.contains`
  and `++`.
* Loosely-typed JSON payload values are modelled by small inductive types
  that distinguish exactly the shapes the code distinguishes (dictionary
  with/without a key, non-dictionary value, JSON null).
* Python exceptions are modelled with `Except PyErr`; a function that the
  source cannot observe raising is pure.
* `datetime.strptime` with the concrete format strings appearing in the
  source is implemented directly over `PyStr`, following CPython's
  `_strptime` regular expressions for the directives `%Y %m %d %H %M %S %z`
  and the validation performed by the `datetime` constructor.
  (For `%S`, CPython additionally accepts the leap-second values 60 and 61
  and then fails in the `datetime` constructor; in both readings the format
  as a whole fails to parse, which is the only thing the source observes.)
* `datetime.strftime` with `"%Y-%m-%d"` / `"%Y-%m-%dT%H:%M:%S"` is modelled
  with zero-padded fields (all field values are ≤ 4 digits by construction).
-/

/-- A Python string, modelled as its list of characters. -/
abbrev PyStr := List Char

/-- Coerce a Lean string literal to a `PyStr`. -/
def pyStr (s : String) : PyStr := s.data

/-- The Python exception classes the modelled code can raise. -/
inductive PyErr where
  | keyError
  | typeError
  | valueError
  | netError
deriving DecidableEq, Repr

/-- Numeric value of a decimal digit character. -/
def digitVal (c : Char) : Nat := c.toNat - 48

/-- Python truthiness of an optional string (`None` and `""` are falsy). -/
def pyStrTruthy : Option PyStr → Bool
  | none => false
  | some s => !s.isEmpty

/-! ## Dates: `datetime.strptime` / `strftime` for the formats in the source -/

/-- A parsed `datetime.datetime` value.  `tz` is the UTC offset in seconds
when the value is timezone-aware (`%z` matched), `none` when naive.  The
offset's numeric value is never consulted by the modelled code (it only
checks awareness and strips it), only its presence. -/
structure PyDateTime where
  year : Nat
  month : Nat
  day : Nat
  hour : Nat
  minute : Nat
  second : Nat
  tz : Option Int
deriving DecidableEq, Repr

/-- A `datetime.date` value, as produced by `datetime.date()`. -/
structure PyDate where
  year : Nat
  month : Nat
  day : Nat
deriving DecidableEq, Repr

/-- The `.date()` projection of a `datetime`. -/
def PyDateTime.dateOf (d : PyDateTime) : PyDate := ⟨d.year, d.month, d.day⟩

/-- Gregorian leap-year test, as in `calendar.isleap` / `datetime`. -/
def isLeapYear (y : Nat) : Bool := y % 4 == 0 && (y % 100 != 0 || y % 400 == 0)

/-- Days in a month, as validated by the `datetime` constructor. -/
def daysInMonth (y m : Nat) : Nat :=
  if m == 2 then (if isLeapYear y then 29 else 28)
  else if m == 4 || m == 6 || m == 9 || m == 11 then 30
  else 31

/-- The range validation performed by the `datetime.datetime` constructor
(`MINYEAR = 1`, `MAXYEAR = 9999`). -/
def mkPyDateTime (y m d h mi s : Nat) (tz : Option Int) : Option PyDateTime :=
  if 1 ≤ y ∧ y ≤ 9999 ∧ 1 ≤ m ∧ m ≤ 12 ∧ 1 ≤ d ∧ d ≤ daysInMonth y m
      ∧ h ≤ 23 ∧ mi ≤ 59 ∧ s ≤ 59 then
    some ⟨y, m, d, h, mi, s, tz⟩
  else
    none

/-- Parse exactly four decimal digits (CPython's regex for `%Y`). -/
def pYear4 : PyStr → Option (Nat × PyStr)
  | a :: b :: c :: d :: rest =>
    if a.isDigit && b.isDigit && c.isDigit && d.isDigit then
      some (1000 * digitVal a + 100 * digitVal b + 10 * digitVal c + digitVal d, rest)
    else none
  | _ => none

/-- Parse one or two decimal digits, preferring two: two digits are taken
when their value lies in `[lo2, hi2]`, otherwise a single digit is taken
when its value lies in `[lo1, hi1]`.  This reproduces CPython's `_strptime`
alternation regexes for `%m` (1..12), `%d` (1..31), `%H` (0..23) and
`%M`/`%S` (0..59). -/
def pNum2or1 (lo2 hi2 lo1 hi1 : Nat) : PyStr → Option (Nat × PyStr)
  | a :: b :: rest =>
    if a.isDigit && b.isDigit
        && decide (lo2 ≤ 10 * digitVal a + digitVal b)
        && decide (10 * digitVal a + digitVal b ≤ hi2) then
      some (10 * digitVal a + digitVal b, rest)
    else if a.isDigit && decide (lo1 ≤ digitVal a) && decide (digitVal a ≤ hi1) then
      some (digitVal a, b :: rest)
    else none
  | [a] =>
    if a.isDigit && decide (lo1 ≤ digitVal a) && decide (digitVal a ≤ hi1) then
      some (digitVal a, [])
    else none
  | [] => none

/-- Parse a literal character. -/
def pLit (c : Char) : PyStr → Option PyStr
  | a :: rest => if a == c then some rest else none
  | [] => none

/-- Parse exactly two decimal digits (used inside `%z`). -/
def pDigit2 : PyStr → Option (Nat × PyStr)
  | a :: b :: rest =>
    if a.isDigit && b.isDigit then some (10 * digitVal a + digitVal b, rest)
    else none
  | _ => none

/-- Optional colon inside a `%z` offset. -/
def pOptColon : PyStr → PyStr
  | ':' :: rest => rest
  | s => s

/-- Optional seconds part of a `%z` offset (`(:?[0-5]\d)?`; fractional
seconds are not modelled — no caller produces them). -/
def pTzSeconds : PyStr → (Nat × PyStr)
  | s =>
    match pDigit2 (pOptColon s) with
    | some (v, rest) => if v ≤ 59 then (v, rest) else (0, s)
    | none => (0, s)

/-- Parse a `%z` UTC offset: `Z` or `[+-]\d\d:?[0-5]\d(:?[0-5]\d)?`, with the
`datetime.timezone` validation that the absolute offset is strictly below
24 hours. -/
def pTz : PyStr → Option (Int × PyStr)
  | 'Z' :: rest => some (0, rest)
  | c :: rest =>
    if c == '+' || c == '-' then
      match pDigit2 rest with
      | some (hh, r1) =>
        match pDigit2 (pOptColon r1) with
        | some (mm, r2) =>
          if mm ≤ 59 then
            let (ss, r3) := pTzSeconds r2
            let total : Nat := hh * 3600 + mm * 60 + ss
            if total < 86400 then
              some (if c == '-' then -(total : Int) else (total : Int), r3)
            else none
          else none
        | none => none
      | none => none
    else none
  | [] => none

/-- Shared tail of the two timestamp formats: `T%H:%M:%S` after the date. -/
def pTimeTail (r : PyStr) : Option (Nat × Nat × Nat × PyStr) :=
  match pLit 'T' r with
  | none => none
  | some r1 =>
    match pNum2or1 0 23 0 9 r1 with
    | none => none
    | some (h, r2) =>
      match pLit ':' r2 with
      | none => none
      | some r3 =>
        match pNum2or1 0 59 0 9 r3 with
        | none => none
        | some (mi, r4) =>
          match pLit ':' r4 with
          | none => none
          | some r5 =>
            match pNum2or1 0 59 0 9 r5 with
            | none => none
            | some (se, r6) => some (h, mi, se, r6)

/-- Parse the common date prefix `%Y-%m-%d` of the timestamp formats. -/
def pDatePrefix (s : PyStr) : Option (Nat × Nat × Nat × PyStr) :=
  match pYear4 s with
  | none => none
  | some (y, r1) =>
    match pLit '-' r1 with
    | none => none
    | some r2 =>
      match pNum2or1 1 12 1 9 r2 with
      | none => none
      | some (m, r3) =>
        match pLit '-' r3 with
        | none => none
        | some r4 =>
          match pNum2or1 1 31 1 9 r4 with
          | none => none
          | some (d, r5) => some (y, m, d, r5)

/-- `datetime.strptime(s, "%Y-%m-%d")` (the whole string must match). -/
def strptimeDateOnly (s : PyStr) : Option PyDateTime :=
  match pDatePrefix s with
  | none => none
  | some (y, m, d, r5) =>
    if r5.isEmpty then mkPyDateTime y m d 0 0 0 none else none

/-- `datetime.strptime(s, "%Y-%m-%dT%H:%M:%S")`. -/
def strptimeDateTimeT (s : PyStr) : Option PyDateTime :=
  match pDatePrefix s with
  | none => none
  | some (y, m, d, r) =>
    match pTimeTail r with
    | none => none
    | some (h, mi, se, r6) =>
      if r6.isEmpty then mkPyDateTime y m d h mi se none else none

/-- `datetime.strptime(s, "%Y-%m-%dT%H:%M:%S%z")`. -/
def strptimeFullTz (s : PyStr) : Option PyDateTime :=
  match pDatePrefix s with
  | none => none
  | some (y, m, d, r) =>
    match pTimeTail r with
    | none => none
    | some (h, mi, se, r6) =>
      match pTz r6 with
      | none => none
      | some (off, r7) =>
        if r7.isEmpty then mkPyDateTime y m d h mi se (some off) else none

/-- `datetime.strptime(s, "%Y/%m")` (day defaults to 1). -/
def strptimeYearMonth (s : PyStr) : Option PyDateTime :=
  match pYear4 s with
  | none => none
  | some (y, r1) =>
    match pLit '/' r1 with
    | none => none
    | some r2 =>
      match pNum2or1 1 12 1 9 r2 with
      | none => none
      | some (m, r3) =>
        if r3.isEmpty then mkPyDateTime y m 1 0 0 0 none else none

/-- `datetime.strptime(s, "%Y")` (month and day default to 1). -/
def strptimeYear (s : PyStr) : Option PyDateTime :=
  match pYear4 s with
  | none => none
  | some (y, r1) =>
    if r1.isEmpty then mkPyDateTime y 1 1 0 0 0 none else none

/-- Two-digit zero-padded field, as printed by `strftime`. -/
def pad2 (n : Nat) : PyStr := [Nat.digitChar (n / 10), Nat.digitChar (n % 10)]

/-- Four-digit zero-padded field, as printed by `strftime("%Y")`. -/
def pad4 (n : Nat) : PyStr :=
  [Nat.digitChar (n / 1000), Nat.digitChar (n / 100 % 10),
   Nat.digitChar (n / 10 % 10), Nat.digitChar (n % 10)]

/-- `d.strftime("%Y-%m-%d")`. -/
def strftimeDate (d : PyDateTime) : PyStr :=
  pad4 d.year ++ '-' :: pad2 d.month ++ '-' :: pad2 d.day

/-- `d.strftime("%Y-%m-%dT%H:%M:%S")`. -/
def strftimeDateTime (d : PyDateTime) : PyStr :=
  strftimeDate d ++ 'T' :: pad2 d.hour ++ ':' :: pad2 d.minute ++ ':' :: pad2 d.second

/-! ## `ZoteroToNotion.parse_date` -/

/-- `ZoteroToNotion.parse_date(date_str, include_time)`: empty input returns
`None`; otherwise the four formats are tried from most to least specific and
the first that parses wins; the output carries the time of day only when
`include_time` is set and the matched format contained `%H:%M:%S` (only the
first one does); if no format matches, `None` is returned (a warning is
logged, no exception escapes). -/
def parseDate (dateStr : PyStr) (includeTime : Bool) : Option PyStr :=
  if dateStr.isEmpty then none
  else
    match strptimeFullTz dateStr with
    | some d => some (if includeTime then strftimeDateTime d else strftimeDate d)
    | none =>
      match strptimeDateOnly dateStr with
      | some d => some (strftimeDate d)
      | none =>
        match strptimeYearMonth dateStr with
        | some d => some (strftimeDate d)
        | none =>
          match strptimeYear dateStr with
          | some d => some (strftimeDate d)
          | none => none

/-! ## `ZoteroToNotion.should_update_reference` -/

/-- Notion-side parsing in `should_update_reference`: formats
`"%Y-%m-%dT%H:%M:%S"` then `"%Y-%m-%d"`, first success wins. -/
def parseNotionDate (s : PyStr) : Option PyDateTime :=
  match strptimeDateTimeT s with
  | some d => some d
  | none => strptimeDateOnly s

/-- Zotero-side parsing in `should_update_reference`: formats
`"%Y-%m-%dT%H:%M:%S%z"`, `"%Y-%m-%dT%H:%M:%S"`, `"%Y-%m-%d"`, first success
wins. -/
def parseZoteroDate (s : PyStr) : Option PyDateTime :=
  match strptimeFullTz s with
  | some d => some d
  | none =>
    match strptimeDateTimeT s with
    | some d => some d
    | none => strptimeDateOnly s

/-- Field-wise lexicographic comparison of two naive datetimes (Python `<`
on naive `datetime` values). -/
def dtLtNaive (a b : PyDateTime) : Bool :=
  decide (a.year < b.year) ||
  (a.year == b.year && (decide (a.month < b.month) ||
   (a.month == b.month && (decide (a.day < b.day) ||
    (a.day == b.day && (decide (a.hour < b.hour) ||
     (a.hour == b.hour && (decide (a.minute < b.minute) ||
      (a.minute == b.minute && decide (a.second < b.second))))))))))

/-- Lexicographic comparison, Python `<` on `date` values. -/
def dateLt (a b : PyDate) : Bool :=
  decide (a.year < b.year) ||
  (a.year == b.year && (decide (a.month < b.month) ||
   (a.month == b.month && decide (a.day < b.day))))

/-- Python `zotero_date > notion_date` on `datetime` values.  Comparing a
naive with an aware value raises `TypeError`.  In `should_update_reference`
the notion side is always naive (its formats carry no `%z`) and an aware
zotero side is stripped by the preceding `replace(tzinfo=None)`, so the
error branch is unreachable there; an aware/aware comparison cannot arise
for the same reason. -/
def pyDtGt (z n : PyDateTime) : Except PyErr Bool :=
  match z.tz, n.tz with
  | none, none => .ok (dtLtNaive n z)
  | _, _ => .error .typeError

/-- `ZoteroToNotion.should_update_reference(notion_modified_date,
zotero_modified_date)`.  The first argument comes from
`find_reference_in_notion` and may be `None`. -/
def shouldUpdateReference (notionMD : Option PyStr) (zoteroMD : PyStr) : Bool :=
  if !pyStrTruthy notionMD || zoteroMD.isEmpty then
    -- missing date information: update to be safe
    true
  else
    let ns := notionMD.getD []
    match parseNotionDate ns with
    | none => true   -- could not parse Notion date format
    | some notionDate =>
      match parseZoteroDate zoteroMD with
      | none => true   -- could not parse Zotero date format
      | some zd0 =>
        -- convert to naive datetime objects for comparison if needed
        let zoteroDate :=
          if notionDate.tz.isNone && zd0.tz.isSome then { zd0 with tz := none } else zd0
        if ns.contains 'T' && zoteroMD.contains 'T' then
          match pyDtGt zoteroDate notionDate with
          | .ok b => b
          | .error _ => true   -- outer `except`: update to be safe
        else
          dateLt notionDate.dateOf zoteroDate.dateOf

/-! ## Creators and `format_authors` (with the `validate_creators` decorator) -/

/-- A creator dictionary's three recognised optional string entries.  `none`
models an absent key. -/
structure Creator where
  name : Option PyStr
  firstName : Option PyStr
  lastName : Option PyStr
deriving DecidableEq, Repr

/-- An element of a `creators` list: either a dictionary or some other JSON
value (the only distinction `validate_creators_list` makes). -/
inductive CreatorEntry where
  | dict (c : Creator)
  | notDict
deriving DecidableEq, Repr

/-- `decorators.validate_creators_list`: the argument must be a list whose
every element is a dictionary containing at least one of `name`,
`lastName`, `firstName`. -/
def validateCreatorsList (creators : List CreatorEntry) : Bool :=
  creators.all fun e =>
    match e with
    | .dict c => c.name.isSome || c.lastName.isSome || c.firstName.isSome
    | .notDict => false

/-- Display name of one creator as computed in the body of
`format_authors`: a present, non-empty `name` is used verbatim; otherwise
`f"{creator.get('firstName', '')} {creator.get('lastName', '')}"`. -/
def creatorDisplayName (c : Creator) : PyStr :=
  match c.name with
  | some n => if !n.isEmpty then n else (c.firstName.getD []) ++ ' ' :: (c.lastName.getD [])
  | none => (c.firstName.getD []) ++ ' ' :: (c.lastName.getD [])

/-- The loop body of `format_authors` over the validated entries.  The
`notDict` case is unreachable: the decorator's validation rejects any list
containing a non-dictionary before the body runs. -/
def formatAuthorsBody : List CreatorEntry → List PyStr
  | [] => []
  | .dict c :: rest => creatorDisplayName c :: formatAuthorsBody rest
  | .notDict :: rest => formatAuthorsBody rest

/-- `ZoteroToNotion.format_authors` as decorated with `@validate_creators()`:
if `validate_creators_list` rejects the argument, the decorator logs the
`InvalidReferenceError` and returns `None`; otherwise the body joins the
display names with `", "`. -/
def formatAuthors (creators : List CreatorEntry) : Option PyStr :=
  if validateCreatorsList creators then
    some (List.intercalate (pyStr ", ") (formatAuthorsBody creators))
  else
    none

/-- A malformed creators entry in the sense of the claim: not a dictionary,
or a dictionary lacking all of `name`, `firstName`, `lastName`. -/
def malformedCreatorEntry : CreatorEntry → Bool
  | .dict c => c.name.isNone && c.firstName.isNone && c.lastName.isNone
  | .notDict => true

/-! ## Collections: `fetch_collections` and `format_collection_names` -/

/-- The `data` value of a collections-endpoint entry: a dictionary with an
optional `name` key, or some other JSON value. -/
inductive CollData where
  | dict (name : Option PyStr)
  | notDict
deriving DecidableEq, Repr

/-- One entry of the collections-endpoint response: a dictionary with
optional `key` and `data` entries, or some other JSON value. -/
inductive CollEntry where
  | dict (key : Option PyStr) (dat : Option CollData)
  | notDict
deriving DecidableEq, Repr

/-- Python `collection["key"]`: `TypeError` on a non-dictionary, `KeyError`
when the key is absent. -/
def collEntryKey : CollEntry → Except PyErr PyStr
  | .notDict => .error .typeError
  | .dict none _ => .error .keyError
  | .dict (some k) _ => .ok k

/-- Python `collection["data"]`. -/
def collEntryData : CollEntry → Except PyErr CollData
  | .notDict => .error .typeError
  | .dict _ none => .error .keyError
  | .dict _ (some d) => .ok d

/-- Python `collection["data"]["name"]` applied to the `data` value. -/
def collDataName : CollData → Except PyErr PyStr
  | .notDict => .error .typeError
  | .dict none => .error .keyError
  | .dict (some n) => .ok n

/-- Set a key in an association list, overwriting as Python dict assignment
does. -/
def assocSet (m : List (PyStr × PyStr)) (k v : PyStr) : List (PyStr × PyStr) :=
  if m.any (fun p => p.1 == k) then
    m.map (fun p => if p.1 == k then (k, v) else p)
  else
    m ++ [(k, v)]

/-- Python `collections.get(k, "")`. -/
def assocGetD (m : List (PyStr × PyStr)) (k : PyStr) : PyStr :=
  match m.find? (fun p => p.1 == k) with
  | some p => p.2
  | none => []

/-- The shape test in the loop body of `fetch_collections` (reached only
after the preceding debug statements have subscripted the entry without
raising). -/
def collEntryWellFormed : CollEntry → Bool
  | .dict (some _) (some (.dict (some _))) => true
  | _ => false

/-- The entry loop of `ZoteroToNotion.fetch_collections` over an already
parsed status-200 response body.  Before the shape check, the source
evaluates `collection["key"]`, `collection["data"]` and
`collection["data"]["name"]` as arguments of `ztn_logger.debug(...)` calls;
those argument expressions are evaluated eagerly regardless of log level,
so a malformed entry raises there and the exception propagates out of
`fetch_collections` (the surrounding `try` only guards `response.json()`). -/
def fetchCollectionsLoop : List CollEntry → List (PyStr × PyStr) →
    Except PyErr (List (PyStr × PyStr))
  | [], acc => .ok acc
  | e :: rest, acc => do
    let k ← collEntryKey e          -- debug log: Collection Key
    let dv ← collEntryData e        -- debug log: Collection Data
    let nm ← collDataName dv        -- debug log: Collection Name
    if collEntryWellFormed e then
      fetchCollectionsLoop rest (assocSet acc k nm)
    else
      fetchCollectionsLoop rest acc -- "Skipping invalid collection format"

/-- `ZoteroToNotion.fetch_collections` restricted to the path the claims
concern: a status-200 response that parsed as JSON. -/
def fetchCollections (entries : List CollEntry) : Except PyErr (List (PyStr × PyStr)) :=
  fetchCollectionsLoop entries []

/-- The `collections` value of a reference's `data` dictionary:
`data.get("collections", [])` yields a JSON array (an absent key yields the
empty array) or JSON `null`.  `len(None)` raises `TypeError`. -/
inductive CollectionsVal where
  | ids (l : List PyStr)
  | nullVal
deriving DecidableEq, Repr

/-- `ZoteroToNotion.format_collection_names(collection_ids, collections)`:
for a non-empty list, map each id through `collections.get(id, "")`; for an
empty list fall through to the warning and return `[]`.  `len` of a JSON
`null` raises `TypeError` before the branch is chosen. -/
def formatCollectionNames (cv : CollectionsVal) (collections : List (PyStr × PyStr)) :
    Except PyErr (List PyStr) :=
  match cv with
  | .nullVal => .error .typeError
  | .ids l =>
    if l.length > 0 then
      .ok (l.map (fun cid => assocGetD collections cid))
    else
      .ok []   -- warning logged, empty list returned

/-! ## References and `process_abstract` -/

/-- The fields of a reference's `data` dictionary used by the sync logic.
`none` models an absent key.  The remaining payload fields (`url`, `DOI`,
`publisher`, `extra`, `itemType`, `tags`) are copied into request payloads
verbatim and never influence control flow, matching or state tracked here. -/
structure ItemData where
  title : Option PyStr
  collections : CollectionsVal
  creators : List CreatorEntry
  abstractNote : Option PyStr
  dateModified : Option PyStr
  accessDate : Option PyStr
  date : Option PyStr
deriving DecidableEq, Repr

/-- An element of the fetched references list as the sync loop sees it:
`None` (skipped explicitly), a non-dictionary (on which `"data" in
reference` raises `TypeError`), or a dictionary whose `data` member, when
present and a dictionary, is an `ItemData`. -/
inductive SrcItem where
  | pyNone
  | notDict
  | item (dat : Option ItemData)
deriving DecidableEq, Repr

/-- `ZoteroToNotion.process_abstract(reference)`: pass the abstract through
unchanged unless it exceeds 2000 characters, in which case keep the first
1997 characters and append `"..."`; a missing, empty or non-string abstract
yields `""`. -/
def processAbstract (d : ItemData) : PyStr :=
  match d.abstractNote with
  | none => []
  | some a =>
    if !a.isEmpty then
      if a.length > 2000 then a.take 1997 ++ pyStr "..." else a
    else []

/-! ## The Notion destination: pages and `find_reference_in_notion` -/

/-- A destination database page, restricted to the properties the sync
logic reads back: its identifier, Title, Collections multi-select and the
`start` of the Modified Date property (`none` when the property is absent
or empty).  The remaining mapped properties never influence matching or
staleness. -/
structure NotionPage where
  id : PyStr
  title : PyStr
  collections : List PyStr
  modifiedDate : Option PyStr
deriving DecidableEq, Repr

/-- The query payload built by `find_reference_in_notion`: an exact Title
match, conjoined with an `or` of Collections-contains filters when at least
one non-empty collection name was supplied. -/
structure NotionQueryPayload where
  titleEquals : PyStr
  collectionAnyOf : Option (List PyStr)
deriving DecidableEq, Repr

/-- Payload construction in `find_reference_in_notion`: the `or` clause is
built from the non-empty collection names and appended only when that
filter list is non-empty. -/
def buildSearchPayload (title : PyStr) (collectionNames : List PyStr) : NotionQueryPayload :=
  let collectionFilters := collectionNames.filter (fun n => !n.isEmpty)
  ⟨title, if collectionFilters.isEmpty then none else some collectionFilters⟩

/-- Server-side evaluation of the query payload against one page: Notion's
`title equals` is exact equality, `multi_select contains` is membership,
`or` is disjunction over the collection filters. -/
def pageMatchesPayload (q : NotionQueryPayload) (p : NotionPage) : Bool :=
  p.title == q.titleEquals &&
    (match q.collectionAnyOf with
     | none => true
     | some fs => fs.any (fun n => p.collections.contains n))

/-- `ZoteroToNotion.find_reference_in_notion(title, collection_names)` over
a destination database `pages` (in server response order): returns the pair
`(page_id, modified_date)` of the first matching record, or `(None, None)`
when none matches, together with whether the multiple-matches warning was
logged (`len(results) > 1`). -/
def findReferenceInNotion (pages : List NotionPage) (title : PyStr)
    (collectionNames : List PyStr) : (Option PyStr × Option PyStr) × Bool :=
  let q := buildSearchPayload title collectionNames
  let results := pages.filter (pageMatchesPayload q)
  let warned := decide (results.length > 1)
  match results with
  | [] => ((none, none), warned)
  | r :: _ => ((some r.id, r.modifiedDate), warned)

/-! ## Destination writes: `update_reference_in_notion`, `add_reference_to_notion`

The decorator invocations `@validate_reference_with_key(param_position=...)`
in the source pass a keyword argument that `validate_reference_with_key`
(which takes `required_key`) does not accept; we model the evident intent —
validate that the designated `reference` argument is a dictionary with a
`data` key — which passes for every reference reaching these calls through
the orchestrator's guard. -/

/-- The write requests a sync run can issue against the destination. -/
inductive SyncAction where
  | updateReq (pageId : PyStr)   -- PATCH https://api.notion.com/v1/pages/{pageId}
  | createReq (title : PyStr)    -- POST https://api.notion.com/v1/pages
deriving DecidableEq, Repr

/-- Python `repr` of an optional string, as interpolated into an f-string. -/
def pyReprOptStr : Option PyStr → PyStr
  | none => pyStr "None"
  | some s => '\'' :: s ++ ['\'']

/-- Python `str` of a 2-tuple of optional strings, as interpolated into the
f-string `f"https://api.notion.com/v1/pages/{page_id}"`. -/
def pyReprPair (pr : Option PyStr × Option PyStr) : PyStr :=
  '(' :: pyReprOptStr pr.1 ++ pyStr ", " ++ pyReprOptStr pr.2 ++ [')']

/-- Python truthiness of a tuple: a tuple is truthy iff it is non-empty, so
the 2-tuple returned by `find_reference_in_notion` is always truthy, even
when it is `(None, None)`. -/
def pyPairTruthy (_pr : Option PyStr × Option PyStr) : Bool := true

/-- Effect of `update_reference_in_notion(page_id, reference,
collection_names)`'s PATCH on the tracked page properties: Collections is
overwritten with the non-empty names, Modified Date is overwritten only
when `parse_date(dateModified, include_time=True)` produced a value (the
property is omitted from the payload otherwise, leaving the stored value);
the payload contains no Title property.  A `page_id` matching no page (in
particular the stringified tuple produced by the `add_reference_to_notion`
bug) changes nothing. -/
def patchPage (d : ItemData) (collectionNames : List PyStr) (p : NotionPage) : NotionPage :=
  { p with
    collections := collectionNames.filter (fun n => !n.isEmpty),
    modifiedDate := match parseDate (d.dateModified.getD []) true with
      | some md => some md
      | none => p.modifiedDate }

def updateReferenceInNotion (pages : List NotionPage) (pageId : PyStr)
    (d : ItemData) (collectionNames : List PyStr) : List NotionPage :=
  pages.map fun p => if p.id == pageId then patchPage d collectionNames p else p

/-- The page a (dead) create request would insert, with the server-assigned
identifier `freshId`. -/
def createdPage (freshId : PyStr) (d : ItemData) (collectionNames : List PyStr) : NotionPage :=
  { id := freshId
    title := d.title.getD []
    collections := collectionNames.filter (fun n => !n.isEmpty)
    modifiedDate := parseDate (d.dateModified.getD []) true }

/-- `ZoteroToNotion.add_reference_to_notion(reference, collection_names)`:
the source binds the entire `(page_id, modified_date)` tuple returned by
`find_reference_in_notion` to `page_id`; `if page_id:` is then always true
(a 2-tuple is truthy), so the method always takes the update branch —
PATCHing the URL built from the stringified tuple — and the POST that would
create a new page is dead code.  Returns the issued actions and the
resulting destination state. -/
def addReferenceToNotion (pages : List NotionPage) (d : ItemData)
    (collectionNames : List PyStr) (freshId : PyStr) : List SyncAction × List NotionPage :=
  let pageId := (findReferenceInNotion pages (d.title.getD []) collectionNames).1
  if pyPairTruthy pageId then
    ([.updateReq (pyReprPair pageId)],
     updateReferenceInNotion pages (pyReprPair pageId) d collectionNames)
  else
    ([.createReq (d.title.getD [])], pages ++ [createdPage freshId d collectionNames])

/-! ## The orchestrator: `sync_all_references_to_notion` -/

/-- Per-reference outcome, mirroring the log lines emitted by the loop. -/
inductive ItemOutcome where
  | updated (title : PyStr)     -- "Updated reference '%s' in Notion."
  | upToDate (title : PyStr)    -- "... already up to date in Notion, skipping."
  | added (title : PyStr)       -- "Added reference '%s' to Notion." (the add path)
  | failedCaught (title : PyStr) -- "Failed to process reference '%s': %s"
deriving DecidableEq, Repr

/-- Environment of a run: the page identifiers whose PATCH raises a network
error (`requests.exceptions.RequestException`), re-raised by
`update_reference_in_notion` into the per-item handler. -/
structure SyncEnv where
  failIds : List PyStr
deriving DecidableEq, Repr

/-- Accumulated result of a run: the destination write requests issued, the
destination state, and the per-reference outcomes. -/
structure SyncResult where
  actions : List SyncAction
  pages : List NotionPage
  outcomes : List ItemOutcome
deriving DecidableEq, Repr

/-- The server-assigned id a (dead) create request would yield; its value is
irrelevant because the create branch is unreachable. -/
def deadFreshId : PyStr := pyStr "new-page"

/-- The body of the per-reference `try` block in
`sync_all_references_to_notion`: locate, decide staleness, then update or
add.  Raised errors (here: injected network failures of the PATCH) escape
to the per-item handler. -/
def syncTryBody (env : SyncEnv) (st : SyncResult) (d : ItemData) (title : PyStr)
    (collectionNames : List PyStr) :
    Except PyErr (List SyncAction × List NotionPage × ItemOutcome) :=
  let fr := findReferenceInNotion st.pages title collectionNames
  let notionPageId := fr.1.1
  let notionModifiedDate := fr.1.2
  let zoteroModifiedDate := d.dateModified.getD []
  if pyStrTruthy notionPageId then
    let pid := notionPageId.getD []
    if shouldUpdateReference notionModifiedDate zoteroModifiedDate then
      if env.failIds.contains pid then
        .error .netError
      else
        .ok ([.updateReq pid], updateReferenceInNotion st.pages pid d collectionNames,
             .updated title)
    else
      .ok ([], st.pages, .upToDate title)
  else
    let (acts, pages) := addReferenceToNotion st.pages d collectionNames deadFreshId
    if acts.any (fun a => match a with
        | .updateReq pid => env.failIds.contains pid
        | .createReq _ => false) then
      .error .netError
    else
      .ok (acts, pages, .added title)

/-- One iteration of the reference loop in
`sync_all_references_to_notion`.  `None` entries are skipped; a
non-dictionary entry raises `TypeError` at `"data" in reference` (outside
any handler); entries without a `data` dictionary or a `title` are skipped
by the guard; `format_collection_names` runs before the `try` block, so an
exception there (a JSON-null `collections` field) propagates; everything
from `find_reference_in_notion` on is inside the `try`, whose handler logs
the failure and lets the loop continue. -/
def syncStep (env : SyncEnv) (collections : List (PyStr × PyStr)) (st : SyncResult) :
    SrcItem → Except PyErr SyncResult
  | .pyNone => .ok st
  | .notDict => .error .typeError
  | .item none => .ok st
  | .item (some d) =>
    match d.title with
    | none => .ok st
    | some title => do
      let collectionNames ← formatCollectionNames d.collections collections
      match syncTryBody env st d title collectionNames with
      | .error _ =>
        .ok { st with outcomes := st.outcomes ++ [.failedCaught title] }
      | .ok (acts, pages, oc) =>
        .ok { actions := st.actions ++ acts, pages := pages,
              outcomes := st.outcomes ++ [oc] }

/-- `ZoteroToNotion.sync_all_references_to_notion`, given the already
fetched references and collections mapping and an initial destination
state. -/
def syncAllReferences (references : List SrcItem) (collections : List (PyStr × PyStr))
    (pages : List NotionPage) (env : SyncEnv) : Except PyErr SyncResult :=
  references.foldlM (syncStep env collections) ⟨[], pages, []⟩

/-! ## `fetch_zotero_reference` -/

/-- One page of the paginated Zotero items fetch, as the loop observes it:
a successful page with its items and whether a `rel="next"` link is
present, a non-200 response, or a response body that fails JSON parsing. -/
inductive ZoteroPage where
  | ok (items : List SrcItem) (hasNext : Bool)
  | httpError
  | parseError
deriving DecidableEq, Repr

/-- The `while next_url` loop of `fetch_zotero_reference`, carrying the
`all_items` accumulator: a non-200 status or a JSON parse failure at any
page makes the whole call return `[]`, discarding the accumulator. -/
def fetchZoteroLoop : List ZoteroPage → List SrcItem → List SrcItem
  | [], allItems => allItems
  | .httpError :: _, _ => []
  | .parseError :: _, _ => []
  | .ok items false :: _, allItems => allItems ++ items
  | .ok items true :: rest, allItems => fetchZoteroLoop rest (allItems ++ items)

/-- `ZoteroToNotion.fetch_zotero_reference`, over the sequence of page
responses the server serves for the followed `next` links. -/
def fetchZoteroReference (pages : List ZoteroPage) : List SrcItem :=
  fetchZoteroLoop pages []

/-! ## Toolkit: digits, parser decompositions, format/parse roundtrips -/

theorem digitChar_isDigit (k : Nat) (hk : k ≤ 9) : (Nat.digitChar k).isDigit = true := by
  interval_cases k <;> decide

theorem digitVal_digitChar (k : Nat) (hk : k ≤ 9) : digitVal (Nat.digitChar k) = k := by
  interval_cases k <;> decide

theorem digitChar_ne_T (k : Nat) (hk : k ≤ 9) : Nat.digitChar k ≠ 'T' := by
  interval_cases k <;> decide

theorem pYear4_pad4 (y : Nat) (hy : y ≤ 9999) (r : PyStr) :
    pYear4 (pad4 y ++ r) = some (y, r) := by
  have h1 : y / 1000 ≤ 9 := by omega
  have h2 : y / 100 % 10 ≤ 9 := by omega
  have h3 : y / 10 % 10 ≤ 9 := by omega
  have h4 : y % 10 ≤ 9 := by omega
  simp only [pad4, List.cons_append, List.nil_append, pYear4,
    digitChar_isDigit _ h1, digitChar_isDigit _ h2, digitChar_isDigit _ h3,
    digitChar_isDigit _ h4, digitVal_digitChar _ h1, digitVal_digitChar _ h2,
    digitVal_digitChar _ h3, digitVal_digitChar _ h4, Bool.and_self, if_true]
  have : 1000 * (y / 1000) + 100 * (y / 100 % 10) + 10 * (y / 10 % 10) + y % 10 = y := by
    omega
  rw [this]

theorem pNum2or1_pad2 (lo2 hi2 lo1 hi1 n : Nat) (hlo : lo2 ≤ n) (hhi : n ≤ hi2)
    (hn : n ≤ 99) (r : PyStr) :
    pNum2or1 lo2 hi2 lo1 hi1 (pad2 n ++ r) = some (n, r) := by
  have h1 : n / 10 ≤ 9 := by omega
  have h2 : n % 10 ≤ 9 := by omega
  simp only [pad2, List.cons_append, List.nil_append, pNum2or1,
    digitChar_isDigit _ h1, digitChar_isDigit _ h2,
    digitVal_digitChar _ h1, digitVal_digitChar _ h2, Bool.true_and]
  have hv : 10 * (n / 10) + n % 10 = n := by omega
  rw [hv]
  simp [hlo, hhi]

theorem pLit_cons_self (c : Char) (r : PyStr) : pLit c (c :: r) = some r := by
  simp [pLit]

theorem pYear4_decomp (s : PyStr) (y : Nat) (r : PyStr) (h : pYear4 s = some (y, r)) :
    ∃ t, s = t ++ r ∧ ∀ c ∈ t, c.isDigit = true := by
  match s, h with
  | a :: b :: c :: d :: rest, h =>
    rw [pYear4] at h
    split at h
    · rename_i hdig
      simp only [Option.some.injEq, Prod.mk.injEq] at h
      obtain ⟨-, rfl⟩ := h
      simp only [Bool.and_eq_true] at hdig
      refine ⟨[a, b, c, d], rfl, ?_⟩
      intro x hx
      simp only [List.mem_cons, List.not_mem_nil, or_false] at hx
      rcases hx with rfl | rfl | rfl | rfl
      · exact hdig.1.1.1
      · exact hdig.1.1.2
      · exact hdig.1.2
      · exact hdig.2
    · cases h

theorem pNum2or1_decomp (lo2 hi2 lo1 hi1 : Nat) (s : PyStr) (v : Nat) (r : PyStr)
    (h : pNum2or1 lo2 hi2 lo1 hi1 s = some (v, r)) :
    ∃ t, s = t ++ r ∧ ∀ c ∈ t, c.isDigit = true := by
  match s, h with
  | a :: b :: rest, h =>
    rw [pNum2or1] at h
    split at h
    · rename_i hdig
      simp only [Option.some.injEq, Prod.mk.injEq] at h
      obtain ⟨-, rfl⟩ := h
      simp only [Bool.and_eq_true] at hdig
      refine ⟨[a, b], rfl, ?_⟩
      intro x hx
      simp only [List.mem_cons, List.not_mem_nil, or_false] at hx
      rcases hx with rfl | rfl
      · exact hdig.1.1.1
      · exact hdig.1.1.2
    · split at h
      · rename_i hdig
        simp only [Option.some.injEq, Prod.mk.injEq] at h
        obtain ⟨-, rfl⟩ := h
        simp only [Bool.and_eq_true] at hdig
        refine ⟨[a], rfl, ?_⟩
        intro x hx
        simp only [List.mem_cons, List.not_mem_nil, or_false] at hx
        rcases hx with rfl
        exact hdig.1.1
      · cases h
  | [a], h =>
    rw [pNum2or1] at h
    split at h
    · rename_i hdig
      simp only [Option.some.injEq, Prod.mk.injEq] at h
      obtain ⟨-, rfl⟩ := h
      simp only [Bool.and_eq_true] at hdig
      refine ⟨[a], by simp, ?_⟩
      intro x hx
      simp only [List.mem_cons, List.not_mem_nil, or_false] at hx
      rcases hx with rfl
      exact hdig.1.1
    · cases h

theorem pLit_decomp (c : Char) (s r : PyStr) (h : pLit c s = some r) : s = c :: r := by
  match s, h with
  | a :: rest, h =>
    rw [pLit] at h
    split at h
    · rename_i heq
      simp only [Option.some.injEq] at h
      subst h
      rw [eq_of_beq heq]
    · cases h

theorem pDatePrefix_decomp (s : PyStr) (y m d : Nat) (r : PyStr)
    (h : pDatePrefix s = some (y, m, d, r)) :
    ∃ t, s = t ++ r ∧ ∀ c ∈ t, c.isDigit = true ∨ c = '-' := by
  rw [pDatePrefix] at h
  cases hy : pYear4 s with
  | none => simp only [hy] at h; cases h
  | some p =>
    obtain ⟨yv, r1⟩ := p
    simp only [hy] at h
    cases h1 : pLit '-' r1 with
    | none => simp only [h1] at h; cases h
    | some r2 =>
      simp only [h1] at h
      cases h2 : pNum2or1 1 12 1 9 r2 with
      | none => simp only [h2] at h; cases h
      | some p2 =>
        obtain ⟨mv, r3⟩ := p2
        simp only [h2] at h
        cases h3 : pLit '-' r3 with
        | none => simp only [h3] at h; cases h
        | some r4 =>
          simp only [h3] at h
          cases h4 : pNum2or1 1 31 1 9 r4 with
          | none => simp only [h4] at h; cases h
          | some p4 =>
            obtain ⟨dv, r5⟩ := p4
            simp only [h4] at h
            simp only [Option.some.injEq, Prod.mk.injEq] at h
            obtain ⟨-, -, -, rfl⟩ := h
            obtain ⟨t1, rfl, ht1⟩ := pYear4_decomp _ _ _ hy
            obtain rfl := pLit_decomp _ _ _ h1
            obtain ⟨t2, rfl, ht2⟩ := pNum2or1_decomp _ _ _ _ _ _ _ h2
            obtain rfl := pLit_decomp _ _ _ h3
            obtain ⟨t3, rfl, ht3⟩ := pNum2or1_decomp _ _ _ _ _ _ _ h4
            refine ⟨t1 ++ '-' :: t2 ++ '-' :: t3, by simp, ?_⟩
            intro c hc
            rcases List.mem_append.mp hc with h | h
            · rcases List.mem_append.mp h with h | h
              · exact Or.inl (ht1 c h)
              · rcases List.mem_cons.mp h with rfl | h
                · exact Or.inr rfl
                · exact Or.inl (ht2 c h)
            · rcases List.mem_cons.mp h with rfl | h
              · exact Or.inr rfl
              · exact Or.inl (ht3 c h)

theorem strptimeDateOnly_chars (s : PyStr) (dt : PyDateTime)
    (h : strptimeDateOnly s = some dt) : ∀ c ∈ s, c.isDigit = true ∨ c = '-' := by
  rw [strptimeDateOnly] at h
  cases hp : pDatePrefix s with
  | none => simp only [hp] at h; cases h
  | some p =>
    obtain ⟨y, m, d, r5⟩ := p
    simp only [hp] at h
    by_cases hr5 : r5.isEmpty
    · have hr5' : r5 = [] := by simpa [List.isEmpty_iff] using hr5
      subst hr5'
      obtain ⟨t, hs, ht⟩ := pDatePrefix_decomp _ _ _ _ _ hp
      rw [List.append_nil] at hs
      subst hs
      exact ht
    · rw [if_neg hr5] at h; cases h

/-- A string accepted by the `"%Y-%m-%d"` format contains no `'T'`. -/
theorem strptimeDateOnly_not_contains_T (s : PyStr) (dt : PyDateTime)
    (h : strptimeDateOnly s = some dt) : s.contains 'T' = false := by
  rw [Bool.eq_false_iff]
  intro hcon
  have hmem : 'T' ∈ s := List.elem_iff.mp hcon
  rcases strptimeDateOnly_chars s dt h 'T' hmem with hdig | hdash
  · cases hdig
  · cases hdash

/-- A string accepted by the `"%Y-%m-%dT%H:%M:%S"` format contains `'T'`. -/
theorem strptimeDateTimeT_contains_T (s : PyStr) (dt : PyDateTime)
    (h : strptimeDateTimeT s = some dt) : s.contains 'T' = true := by
  rw [strptimeDateTimeT] at h
  cases hp : pDatePrefix s with
  | none => simp only [hp] at h; cases h
  | some p =>
    obtain ⟨y, m, d, r⟩ := p
    simp only [hp] at h
    cases ht : pTimeTail r with
    | none => simp only [ht] at h; cases h
    | some q =>
      obtain ⟨t1, rfl, -⟩ := pDatePrefix_decomp _ _ _ _ _ hp
      rw [pTimeTail] at ht
      cases hl : pLit 'T' r with
      | none => simp only [hl] at ht; cases ht
      | some r1 =>
        obtain rfl := pLit_decomp _ _ _ hl
        exact List.elem_iff.mpr (by simp)

/-- A string accepted by the `"%Y-%m-%dT%H:%M:%S%z"` format contains `'T'`. -/
theorem strptimeFullTz_contains_T (s : PyStr) (dt : PyDateTime)
    (h : strptimeFullTz s = some dt) : s.contains 'T' = true := by
  rw [strptimeFullTz] at h
  cases hp : pDatePrefix s with
  | none => simp only [hp] at h; cases h
  | some p =>
    obtain ⟨y, m, d, r⟩ := p
    simp only [hp] at h
    cases ht : pTimeTail r with
    | none => simp only [ht] at h; cases h
    | some q =>
      obtain ⟨t1, rfl, -⟩ := pDatePrefix_decomp _ _ _ _ _ hp
      rw [pTimeTail] at ht
      cases hl : pLit 'T' r with
      | none => simp only [hl] at ht; cases ht
      | some r1 =>
        obtain rfl := pLit_decomp _ _ _ hl
        exact List.elem_iff.mpr (by simp)

/-- The field bounds guaranteed by the `datetime` constructor. -/
def PyDateTime.Valid (d : PyDateTime) : Prop :=
  1 ≤ d.year ∧ d.year ≤ 9999 ∧ 1 ≤ d.month ∧ d.month ≤ 12 ∧ 1 ≤ d.day ∧
  d.day ≤ daysInMonth d.year d.month ∧ d.hour ≤ 23 ∧ d.minute ≤ 59 ∧ d.second ≤ 59

theorem daysInMonth_le_31 (y m : Nat) : daysInMonth y m ≤ 31 := by
  rw [daysInMonth]
  split
  · split <;> omega
  · split <;> omega

theorem mkPyDateTime_some (y m d h mi s : Nat) (tz : Option Int) (dt : PyDateTime)
    (hmk : mkPyDateTime y m d h mi s tz = some dt) :
    dt = ⟨y, m, d, h, mi, s, tz⟩ ∧ dt.Valid := by
  rw [mkPyDateTime] at hmk
  split at hmk
  · rename_i hb
    injection hmk with hmk
    subst hmk
    exact ⟨rfl, hb⟩
  · cases hmk

theorem pDatePrefix_strftimeDate (d : PyDateTime) (hd : d.Valid) (tail : PyStr) :
    pDatePrefix (strftimeDate d ++ tail) = some (d.year, d.month, d.day, tail) := by
  obtain ⟨h1, h2, h3, h4, h5, h6, h7, h8, h9⟩ := hd
  have hday : d.day ≤ 99 := le_trans h6 (le_trans (daysInMonth_le_31 _ _) (by omega))
  have hpad3 := pNum2or1_pad2 1 12 1 9 d.month h3 h4 (by omega)
  have hpad5 := pNum2or1_pad2 1 31 1 9 d.day h5 (le_trans h6 (daysInMonth_le_31 _ _)) hday
  rw [strftimeDate, pDatePrefix]
  simp only [List.append_assoc, List.cons_append]
  rw [pYear4_pad4 _ h2]
  simp only [pLit_cons_self, hpad3, hpad5]

theorem strftimeDate_roundtrip (d : PyDateTime) (hd : d.Valid) :
    strptimeDateOnly (strftimeDate d) = some ⟨d.year, d.month, d.day, 0, 0, 0, none⟩ := by
  have h := pDatePrefix_strftimeDate d hd []
  rw [List.append_nil] at h
  rw [strptimeDateOnly]
  simp only [h, List.isEmpty_nil, if_true]
  obtain ⟨h1, h2, h3, h4, h5, h6, h7, h8, h9⟩ := hd
  rw [mkPyDateTime, if_pos]
  exact ⟨h1, h2, h3, h4, h5, h6, by omega, by omega, by omega⟩

theorem strftimeDateTime_roundtrip (d : PyDateTime) (hd : d.Valid) :
    strptimeDateTimeT (strftimeDateTime d) =
      some ⟨d.year, d.month, d.day, d.hour, d.minute, d.second, none⟩ := by
  obtain ⟨h1, h2, h3, h4, h5, h6, h7, h8, h9⟩ := hd
  have hpadH := pNum2or1_pad2 0 23 0 9 d.hour (Nat.zero_le _) h7 (by omega)
  have hpadM := pNum2or1_pad2 0 59 0 9 d.minute (Nat.zero_le _) h8 (by omega)
  have hpadS0 := pNum2or1_pad2 0 59 0 9 d.second (Nat.zero_le _) h9 (by omega) []
  rw [List.append_nil] at hpadS0
  simp only [strftimeDateTime, strptimeDateTimeT, List.append_assoc, List.cons_append,
    pDatePrefix_strftimeDate d ⟨h1, h2, h3, h4, h5, h6, h7, h8, h9⟩,
    pTimeTail, pLit_cons_self, hpadH, hpadM, hpadS0, List.isEmpty_nil, if_true]
  rw [mkPyDateTime, if_pos]
  exact ⟨h1, h2, h3, h4, h5, h6, h7, h8, h9⟩

theorem strptimeFullTz_strftimeDateTime (d : PyDateTime) (hd : d.Valid) :
    strptimeFullTz (strftimeDateTime d) = none := by
  obtain ⟨h1, h2, h3, h4, h5, h6, h7, h8, h9⟩ := hd
  have hpadH := pNum2or1_pad2 0 23 0 9 d.hour (Nat.zero_le _) h7 (by omega)
  have hpadM := pNum2or1_pad2 0 59 0 9 d.minute (Nat.zero_le _) h8 (by omega)
  have hpadS0 := pNum2or1_pad2 0 59 0 9 d.second (Nat.zero_le _) h9 (by omega) []
  rw [List.append_nil] at hpadS0
  simp only [strftimeDateTime, strptimeFullTz, List.append_assoc, List.cons_append,
    pDatePrefix_strftimeDate d ⟨h1, h2, h3, h4, h5, h6, h7, h8, h9⟩,
    pTimeTail, pLit_cons_self, hpadH, hpadM, hpadS0]
  rfl

theorem strptimeDateTimeT_strftimeDate (d : PyDateTime) (hd : d.Valid) :
    strptimeDateTimeT (strftimeDate d) = none := by
  have h := pDatePrefix_strftimeDate d hd []
  rw [List.append_nil] at h
  rw [strptimeDateTimeT, h]
  rfl

theorem strptimeFullTz_strftimeDate (d : PyDateTime) (hd : d.Valid) :
    strptimeFullTz (strftimeDate d) = none := by
  have h := pDatePrefix_strftimeDate d hd []
  rw [List.append_nil] at h
  rw [strptimeFullTz, h]
  rfl

theorem strftimeDateTime_contains_T (d : PyDateTime) :
    (strftimeDateTime d).contains 'T' = true := by
  apply List.elem_iff.mpr
  rw [strftimeDateTime]
  simp

theorem strftimeDate_not_contains_T (d : PyDateTime) (hd : d.Valid) :
    (strftimeDate d).contains 'T' = false := by
  exact strptimeDateOnly_not_contains_T _ _ (strftimeDate_roundtrip d hd)

theorem strftimeDate_ne_nil (d : PyDateTime) : strftimeDate d ≠ [] := by
  rw [strftimeDate, pad4]
  simp

theorem strftimeDateTime_ne_nil (d : PyDateTime) : strftimeDateTime d ≠ [] := by
  rw [strftimeDateTime, strftimeDate, pad4]
  simp

theorem strptimeDateOnly_spec (s : PyStr) (dt : PyDateTime)
    (h : strptimeDateOnly s = some dt) :
    dt.Valid ∧ dt.hour = 0 ∧ dt.minute = 0 ∧ dt.second = 0 ∧ dt.tz = none := by
  rw [strptimeDateOnly] at h
  cases hp : pDatePrefix s with
  | none => simp only [hp] at h; cases h
  | some p =>
    obtain ⟨y, m, d, r5⟩ := p
    simp only [hp] at h
    split at h
    · obtain ⟨rfl, hv⟩ := mkPyDateTime_some _ _ _ _ _ _ _ _ h
      exact ⟨hv, rfl, rfl, rfl, rfl⟩
    · cases h

theorem strptimeDateTimeT_spec (s : PyStr) (dt : PyDateTime)
    (h : strptimeDateTimeT s = some dt) : dt.Valid ∧ dt.tz = none := by
  rw [strptimeDateTimeT] at h
  cases hp : pDatePrefix s with
  | none => simp only [hp] at h; cases h
  | some p =>
    obtain ⟨y, m, d, r⟩ := p
    simp only [hp] at h
    cases ht : pTimeTail r with
    | none => simp only [ht] at h; cases h
    | some q =>
      obtain ⟨hh, mi, se, r6⟩ := q
      simp only [ht] at h
      split at h
      · obtain ⟨rfl, hv⟩ := mkPyDateTime_some _ _ _ _ _ _ _ _ h
        exact ⟨hv, rfl⟩
      · cases h

theorem strptimeFullTz_spec (s : PyStr) (dt : PyDateTime)
    (h : strptimeFullTz s = some dt) : dt.Valid ∧ dt.tz.isSome = true := by
  rw [strptimeFullTz] at h
  cases hp : pDatePrefix s with
  | none => simp only [hp] at h; cases h
  | some p =>
    obtain ⟨y, m, d, r⟩ := p
    simp only [hp] at h
    cases ht : pTimeTail r with
    | none => simp only [ht] at h; cases h
    | some q =>
      obtain ⟨hh, mi, se, r6⟩ := q
      simp only [ht] at h
      cases hz : pTz r6 with
      | none => simp only [hz] at h; cases h
      | some z =>
        obtain ⟨off, r7⟩ := z
        simp only [hz] at h
        split at h
        · obtain ⟨rfl, hv⟩ := mkPyDateTime_some _ _ _ _ _ _ _ _ h
          exact ⟨hv, rfl⟩
        · cases h

theorem strptimeYearMonth_spec (s : PyStr) (dt : PyDateTime)
    (h : strptimeYearMonth s = some dt) : dt.Valid := by
  rw [strptimeYearMonth] at h
  cases hy : pYear4 s with
  | none => simp only [hy] at h; cases h
  | some p =>
    obtain ⟨y, r1⟩ := p
    simp only [hy] at h
    cases h1 : pLit '/' r1 with
    | none => simp only [h1] at h; cases h
    | some r2 =>
      simp only [h1] at h
      cases h2 : pNum2or1 1 12 1 9 r2 with
      | none => simp only [h2] at h; cases h
      | some p2 =>
        obtain ⟨m, r3⟩ := p2
        simp only [h2] at h
        split at h
        · exact (mkPyDateTime_some _ _ _ _ _ _ _ _ h).2
        · cases h

theorem strptimeYear_spec (s : PyStr) (dt : PyDateTime)
    (h : strptimeYear s = some dt) : dt.Valid := by
  rw [strptimeYear] at h
  cases hy : pYear4 s with
  | none => simp only [hy] at h; cases h
  | some p =>
    obtain ⟨y, r1⟩ := p
    simp only [hy] at h
    split at h
    · exact (mkPyDateTime_some _ _ _ _ _ _ _ _ h).2
    · cases h

theorem parseNotionDate_tz (s : PyStr) (nd : PyDateTime)
    (h : parseNotionDate s = some nd) : nd.tz = none := by
  rw [parseNotionDate] at h
  cases h1 : strptimeDateTimeT s with
  | some d =>
    rw [h1] at h
    injection h with h
    subst h
    exact (strptimeDateTimeT_spec _ _ h1).2
  | none =>
    rw [h1] at h
    exact (strptimeDateOnly_spec _ _ h).2.2.2.2

theorem contains_T_parseNotion (s : PyStr) (nd : PyDateTime)
    (h : parseNotionDate s = some nd) :
    s.contains 'T' = (strptimeDateTimeT s).isSome := by
  rw [parseNotionDate] at h
  cases h1 : strptimeDateTimeT s with
  | some d => rw [strptimeDateTimeT_contains_T s d h1]; rfl
  | none =>
    rw [h1] at h
    rw [strptimeDateOnly_not_contains_T s nd h]; rfl

theorem contains_T_parseZotero (s : PyStr) (zd : PyDateTime)
    (h : parseZoteroDate s = some zd) :
    s.contains 'T' = ((strptimeFullTz s).isSome || (strptimeDateTimeT s).isSome) := by
  rw [parseZoteroDate] at h
  cases h1 : strptimeFullTz s with
  | some d => rw [strptimeFullTz_contains_T s d h1]; rfl
  | none =>
    rw [Option.isSome_none, Bool.false_or]
    rw [h1] at h
    cases h2 : strptimeDateTimeT s with
    | some d => rw [strptimeDateTimeT_contains_T s d h2]; rfl
    | none =>
      rw [h2] at h
      rw [strptimeDateOnly_not_contains_T s zd h]; rfl

/-! ## Claim C3: the staleness decision -/

/-- Claim-side reading of the staleness contract: the destination string
"carries a time-of-day component" exactly when the time-bearing destination
format accepts it. -/
def notionCarriesTime (s : PyStr) : Bool := (strptimeDateTimeT s).isSome

/-- Claim-side reading for the source string: one of the two time-bearing
source formats accepts it. -/
def zoteroCarriesTime (s : PyStr) : Bool :=
  (strptimeFullTz s).isSome || (strptimeDateTimeT s).isSome

/-- The claim's specification of `should_update_reference`, written from its
wording: "update" when either timestamp is absent or fails to parse; when
both carry a time-of-day component, update iff the source timestamp is
strictly later; otherwise update iff the source's calendar date is strictly
later. -/
def staleClaimSpec (notionMD : Option PyStr) (zoteroMD : PyStr) : Bool :=
  match notionMD with
  | none => true
  | some ns =>
    if ns.isEmpty || zoteroMD.isEmpty then true
    else
      match parseNotionDate ns, parseZoteroDate zoteroMD with
      | some nd, some zd =>
        if notionCarriesTime ns && zoteroCarriesTime zoteroMD then
          dtLtNaive nd zd
        else
          dateLt nd.dateOf zd.dateOf
      | _, _ => true

/-- C3.  For every pair of modification-timestamp strings (destination,
source), `should_update_reference` returns `True` when either is absent or
fails to parse; when both carry a time-of-day component it returns `True`
iff the source timestamp is strictly later than the destination timestamp
(both compared as parsed, offset-stripped civil times); otherwise it
returns `True` iff the source's calendar date is strictly later than the
destination's. -/
theorem C3_should_update_matches_claim_spec (nmd : Option PyStr) (zmd : PyStr) :
    shouldUpdateReference nmd zmd = staleClaimSpec nmd zmd := by
  cases nmd with
  | none => rfl
  | some ns =>
    rw [shouldUpdateReference, staleClaimSpec]
    have hcond : (!pyStrTruthy (some ns) || zmd.isEmpty) = (ns.isEmpty || zmd.isEmpty) := by
      simp [pyStrTruthy]
    rw [hcond]
    cases hc : (ns.isEmpty || zmd.isEmpty) with
    | true => simp
    | false =>
      simp only [Bool.false_eq_true, if_false, Option.getD_some]
      cases hn : parseNotionDate ns with
      | none => rfl
      | some nd =>
        cases hz : parseZoteroDate zmd with
        | none => rfl
        | some zd0 =>
          have hT := contains_T_parseNotion ns nd hn
          have hTz := contains_T_parseZotero zmd zd0 hz
          have hndtz : nd.tz = none := parseNotionDate_tz ns nd hn
          simp only [hT, hTz, notionCarriesTime, zoteroCarriesTime]
          by_cases hcc : ((strptimeDateTimeT ns).isSome
              && ((strptimeFullTz zmd).isSome || (strptimeDateTimeT zmd).isSome)) = true
          · cases hz0 : zd0.tz <;> simp [hcc, pyDtGt, hndtz, hz0, dtLtNaive]
          · rw [Bool.not_eq_true] at hcc
            cases hz0 : zd0.tz <;> simp [hcc, hndtz, hz0, PyDateTime.dateOf]

/-! ## Claim C8: `parse_date` -/

/-- Syntactic shape `YYYY-MM-DD` (four digits, dash, two digits, dash, two
digits). -/
def isYmdString : PyStr → Bool
  | [y1, y2, y3, y4, s1, m1, m2, s2, d1, d2] =>
    y1.isDigit && y2.isDigit && y3.isDigit && y4.isDigit && s1 == '-' &&
    m1.isDigit && m2.isDigit && s2 == '-' && d1.isDigit && d2.isDigit
  | _ => false

/-- Syntactic shape `YYYY-MM-DDThh:mm:ss`. -/
def isYmdTimeString : PyStr → Bool
  | [y1, y2, y3, y4, s1, m1, m2, s2, d1, d2, t, h1, h2, c1, n1, n2, c2, e1, e2] =>
    y1.isDigit && y2.isDigit && y3.isDigit && y4.isDigit && s1 == '-' &&
    m1.isDigit && m2.isDigit && s2 == '-' && d1.isDigit && d2.isDigit &&
    t == 'T' && h1.isDigit && h2.isDigit && c1 == ':' && n1.isDigit && n2.isDigit &&
    c2 == ':' && e1.isDigit && e2.isDigit
  | _ => false

theorem isYmdString_strftimeDate (d : PyDateTime) (hd : d.Valid) :
    isYmdString (strftimeDate d) = true := by
  obtain ⟨h1, h2, h3, h4, h5, h6, h7, h8, h9⟩ := hd
  have hm : d.month ≤ 99 := by omega
  have hdy : d.day ≤ 99 := le_trans h6 (le_trans (daysInMonth_le_31 _ _) (by omega))
  simp [strftimeDate, pad4, pad2, isYmdString,
    digitChar_isDigit _ (show d.year / 1000 ≤ 9 by omega),
    digitChar_isDigit _ (show d.year / 100 % 10 ≤ 9 by omega),
    digitChar_isDigit _ (show d.year / 10 % 10 ≤ 9 by omega),
    digitChar_isDigit _ (show d.year % 10 ≤ 9 by omega),
    digitChar_isDigit _ (show d.month / 10 ≤ 9 by omega),
    digitChar_isDigit _ (show d.month % 10 ≤ 9 by omega),
    digitChar_isDigit _ (show d.day / 10 ≤ 9 by omega),
    digitChar_isDigit _ (show d.day % 10 ≤ 9 by omega)]

theorem isYmdTimeString_strftimeDateTime (d : PyDateTime) (hd : d.Valid) :
    isYmdTimeString (strftimeDateTime d) = true := by
  obtain ⟨h1, h2, h3, h4, h5, h6, h7, h8, h9⟩ := hd
  have hm : d.month ≤ 99 := by omega
  have hdy : d.day ≤ 99 := le_trans h6 (le_trans (daysInMonth_le_31 _ _) (by omega))
  simp [strftimeDateTime, strftimeDate, pad4, pad2, isYmdTimeString,
    digitChar_isDigit _ (show d.year / 1000 ≤ 9 by omega),
    digitChar_isDigit _ (show d.year / 100 % 10 ≤ 9 by omega),
    digitChar_isDigit _ (show d.year / 10 % 10 ≤ 9 by omega),
    digitChar_isDigit _ (show d.year % 10 ≤ 9 by omega),
    digitChar_isDigit _ (show d.month / 10 ≤ 9 by omega),
    digitChar_isDigit _ (show d.month % 10 ≤ 9 by omega),
    digitChar_isDigit _ (show d.day / 10 ≤ 9 by omega),
    digitChar_isDigit _ (show d.day % 10 ≤ 9 by omega),
    digitChar_isDigit _ (show d.hour / 10 ≤ 9 by omega),
    digitChar_isDigit _ (show d.hour % 10 ≤ 9 by omega),
    digitChar_isDigit _ (show d.minute / 10 ≤ 9 by omega),
    digitChar_isDigit _ (show d.minute % 10 ≤ 9 by omega),
    digitChar_isDigit _ (show d.second / 10 ≤ 9 by omega),
    digitChar_isDigit _ (show d.second % 10 ≤ 9 by omega)]

/-- C8.  `parse_date` tries the four formats in order (full timestamp with
UTC offset, `YYYY-MM-DD`, `YYYY/M`, `YYYY`) and the first that parses wins;
empty input and input matching no format both yield `None` (no exception
escapes, the function is total); a successful parse yields a `YYYY-MM-DD`
string, or a `YYYY-MM-DDThh:mm:ss` string when time preservation was
requested and the matched format carried time-of-day. -/
theorem C8_parse_date_spec :
    (∀ it, parseDate [] it = none) ∧
    (∀ s it d, strptimeFullTz s = some d →
      parseDate s it = some (if it then strftimeDateTime d else strftimeDate d)) ∧
    (∀ s it d, strptimeFullTz s = none → strptimeDateOnly s = some d →
      parseDate s it = some (strftimeDate d)) ∧
    (∀ s it d, strptimeFullTz s = none → strptimeDateOnly s = none →
      strptimeYearMonth s = some d → parseDate s it = some (strftimeDate d)) ∧
    (∀ s it d, strptimeFullTz s = none → strptimeDateOnly s = none →
      strptimeYearMonth s = none → strptimeYear s = some d →
      parseDate s it = some (strftimeDate d)) ∧
    (∀ s it, strptimeFullTz s = none → strptimeDateOnly s = none →
      strptimeYearMonth s = none → strptimeYear s = none → parseDate s it = none) ∧
    (∀ s it r, parseDate s it = some r →
      isYmdString r = true ∨ (it = true ∧ isYmdTimeString r = true)) := by
  have hne : ∀ (s : PyStr) (d : PyDateTime), strptimeFullTz s = some d → s.isEmpty = false := by
    intro s d h
    cases s with
    | nil => cases h
    | cons a r => rfl
  have hne2 : ∀ (s : PyStr) (d : PyDateTime), strptimeDateOnly s = some d → s.isEmpty = false := by
    intro s d h
    cases s with
    | nil => cases h
    | cons a r => rfl
  have hne3 : ∀ (s : PyStr) (d : PyDateTime), strptimeYearMonth s = some d → s.isEmpty = false := by
    intro s d h
    cases s with
    | nil => cases h
    | cons a r => rfl
  have hne4 : ∀ (s : PyStr) (d : PyDateTime), strptimeYear s = some d → s.isEmpty = false := by
    intro s d h
    cases s with
    | nil => cases h
    | cons a r => rfl
  refine ⟨fun it => rfl, ?_, ?_, ?_, ?_, ?_, ?_⟩
  · intro s it d h
    rw [parseDate, hne s d h, if_neg (by simp), h]
  · intro s it d h0 h
    rw [parseDate, hne2 s d h, if_neg (by simp), h0, h]
  · intro s it d h0 h1 h
    rw [parseDate, hne3 s d h, if_neg (by simp), h0, h1, h]
  · intro s it d h0 h1 h2 h
    rw [parseDate, hne4 s d h, if_neg (by simp), h0, h1, h2, h]
  · intro s it h0 h1 h2 h3
    rw [parseDate]
    split
    · rfl
    · rw [h0, h1, h2, h3]
  · intro s it r h
    rw [parseDate] at h
    split at h
    · cases h
    · cases h0 : strptimeFullTz s with
      | some d =>
        rw [h0] at h
        injection h with h
        subst h
        cases it with
        | true =>
          exact Or.inr ⟨rfl, by
            simp only [if_true]
            exact isYmdTimeString_strftimeDateTime d (strptimeFullTz_spec s d h0).1⟩
        | false =>
          exact Or.inl (by
            simp only [Bool.false_eq_true, if_false]
            exact isYmdString_strftimeDate d (strptimeFullTz_spec s d h0).1)
      | none =>
        rw [h0] at h
        cases h1 : strptimeDateOnly s with
        | some d =>
          rw [h1] at h
          injection h with h
          subst h
          exact Or.inl (isYmdString_strftimeDate d (strptimeDateOnly_spec s d h1).1)
        | none =>
          rw [h1] at h
          cases h2 : strptimeYearMonth s with
          | some d =>
            rw [h2] at h
            injection h with h
            subst h
            exact Or.inl (isYmdString_strftimeDate d (strptimeYearMonth_spec s d h2))
          | none =>
            rw [h2] at h
            cases h3 : strptimeYear s with
            | some d =>
              rw [h3] at h
              injection h with h
              subst h
              exact Or.inl (isYmdString_strftimeDate d (strptimeYear_spec s d h3))
            | none =>
              rw [h3] at h
              cases h

/-! ## Claim C9: `process_abstract` -/

/-- C9.  `process_abstract` returns the abstract unchanged when its length
is at most 2000 characters, and otherwise returns a string of exactly 2000
characters: the first 1997 characters followed by `"..."`. -/
theorem C9_process_abstract_spec (d : ItemData) :
    ((d.abstractNote.getD []).length ≤ 2000 → processAbstract d = d.abstractNote.getD []) ∧
    ((d.abstractNote.getD []).length > 2000 →
      (processAbstract d).length = 2000 ∧
      processAbstract d = (d.abstractNote.getD []).take 1997 ++ pyStr "...") := by
  cases habs : d.abstractNote with
  | none =>
    refine ⟨fun _ => by simp [processAbstract, habs], fun hgt => ?_⟩
    simp at hgt
  | some a =>
    simp only [Option.getD_some]
    by_cases he : a.isEmpty
    · have ha : a = [] := by simpa [List.isEmpty_iff] using he
      subst ha
      exact ⟨fun _ => by simp [processAbstract, habs], fun hgt => by simp at hgt⟩
    · by_cases hlen : a.length > 2000
      · refine ⟨fun hle => by omega, fun _ => ?_⟩
        have heq : processAbstract d = a.take 1997 ++ pyStr "..." := by
          simp [processAbstract, habs, he, hlen]
        refine ⟨?_, heq⟩
        rw [heq, List.length_append, List.length_take]
        have : min 1997 a.length = 1997 := by omega
        rw [this]
        rfl
      · refine ⟨fun _ => ?_, fun hgt => by omega⟩
        simp [processAbstract, habs, he, hlen]

/-! ## Claim C10: `fetch_zotero_reference` pagination failure -/

/-- C10.  If any page of the paginated fetch fails (non-200 status or a
JSON parse failure), `fetch_zotero_reference` returns `[]`, discarding
every item accumulated from earlier pages — regardless of what the
accumulator held. -/
theorem C10_fetch_failure_discards_all (front : List ZoteroPage) (bad : ZoteroPage)
    (rest : List ZoteroPage) (acc : List SrcItem)
    (hfront : ∀ p ∈ front, ∃ items, p = ZoteroPage.ok items true)
    (hbad : bad = ZoteroPage.httpError ∨ bad = ZoteroPage.parseError) :
    fetchZoteroLoop (front ++ bad :: rest) acc = [] := by
  induction front generalizing acc with
  | nil => rcases hbad with rfl | rfl <;> rfl
  | cons p ps ih =>
    obtain ⟨items, rfl⟩ := hfront p (by simp)
    rw [List.cons_append, fetchZoteroLoop]
    exact ih _ (fun q hq => hfront q (by simp [hq]))

/-! ## Claim C7: the reference locator -/

/-- Claim-side matching relation (spec §4.4): exact title match, narrowed by
"any of these collection names" when at least one non-empty name is
supplied. -/
def recordMatches (title : PyStr) (collectionNames : List PyStr) (p : NotionPage) : Bool :=
  p.title == title &&
    (let fs := collectionNames.filter (fun n => !n.isEmpty)
     fs.isEmpty || fs.any (fun n => p.collections.contains n))

theorem pageMatchesPayload_eq_recordMatches (title : PyStr) (names : List PyStr)
    (p : NotionPage) :
    pageMatchesPayload (buildSearchPayload title names) p = recordMatches title names p := by
  rw [pageMatchesPayload, buildSearchPayload, recordMatches]
  by_cases hfs : (names.filter (fun n => !n.isEmpty)).isEmpty
  · simp [hfs]
  · simp [hfs]

/-- C7.  For every title and collection-name set, `find_reference_in_notion`
returns the `(page identifier, modified timestamp)` of the first matching
record in server response order, logs the multiple-match warning exactly
when more than one record matches (and never raises — the function is
total), and returns `(None, None)` when no record matches. -/
theorem C7_find_returns_first_match (pages : List NotionPage) (title : PyStr)
    (names : List PyStr) :
    findReferenceInNotion pages title names =
      ((match pages.filter (recordMatches title names) with
        | [] => (none, none)
        | r :: _ => (some r.id, r.modifiedDate)),
       decide ((pages.filter (recordMatches title names)).length > 1)) := by
  rw [findReferenceInNotion]
  rw [List.filter_congr (fun x _ => pageMatchesPayload_eq_recordMatches title names x)]
  cases pages.filter (recordMatches title names) <;> rfl

/-! ## Claim C4: `format_authors` and malformed creators -/

/-- An organizational creator entry, as in the spec's example. -/
def acmeCreator : CreatorEntry :=
  .dict ⟨some (pyStr "Acme Corp"), none, none⟩

/-- An individual creator entry, as in the spec's example. -/
def janeDoeCreator : CreatorEntry :=
  .dict ⟨none, some (pyStr "Jane"), some (pyStr "Doe")⟩

theorem validate_iff_no_malformed (l : List CreatorEntry) :
    validateCreatorsList l = true ↔ ∀ e ∈ l, malformedCreatorEntry e = false := by
  rw [validateCreatorsList, List.all_eq_true]
  constructor
  · intro h e he
    have h2 := h e he
    cases e with
    | notDict => simp at h2
    | dict c =>
      obtain ⟨n, f, l'⟩ := c
      cases n <;> cases f <;> cases l' <;> simp_all [malformedCreatorEntry]
  · intro h e he
    have h2 := h e he
    cases e with
    | notDict => simp [malformedCreatorEntry] at h2
    | dict c =>
      obtain ⟨n, f, l'⟩ := c
      cases n <;> cases f <;> cases l' <;> simp_all [malformedCreatorEntry]

/-- C4 counterexample.  A creators list holding one well-formed
organizational entry and one malformed (non-dictionary) entry makes the
decorated `format_authors` return `None` — the whole mapping is aborted —
instead of the joined display names of the well-formed entries, as the
claim asserts. -/
theorem C4_counterexample_malformed_entry_aborts :
    formatAuthors [acmeCreator, CreatorEntry.notDict] = none ∧
    formatAuthors [acmeCreator, CreatorEntry.notDict] ≠ some (pyStr "Acme Corp") := by
  constructor
  · rfl
  · decide

/-- C4 amended.  The `validate_creators` decorator is all-or-nothing: a
creators list containing at least one malformed entry (not a dictionary,
or lacking all of `name`, `firstName`, `lastName`) makes the decorated
`format_authors` return `None`, aborting the whole mapping; only when
every entry is well-formed does it return the joined display names. -/
theorem C4_amended_malformed_entry_aborts_whole_mapping (creators : List CreatorEntry) :
    ((∃ e ∈ creators, malformedCreatorEntry e = true) → formatAuthors creators = none) ∧
    ((∀ e ∈ creators, malformedCreatorEntry e = false) →
      formatAuthors creators =
        some (List.intercalate (pyStr ", ") (formatAuthorsBody creators))) := by
  constructor
  · rintro ⟨e, he, hmal⟩
    rw [formatAuthors, if_neg]
    intro hv
    have h2 := (validate_iff_no_malformed creators).mp hv e he
    rw [hmal] at h2
    cases h2
  · intro h
    rw [formatAuthors, if_pos ((validate_iff_no_malformed creators).mpr h)]

/-- Witness for C4's amended claim at the spec's own example list. -/
theorem C4_amended_witness :
    formatAuthors [acmeCreator, janeDoeCreator] = some (pyStr "Acme Corp, Jane Doe") := by
  have h := (C4_amended_malformed_entry_aborts_whole_mapping
    [acmeCreator, janeDoeCreator]).2 (by decide)
  exact h.trans (by decide)

/-! ## Claim C5: `fetch_collections` and malformed entries -/

/-- C5.  A collections entry lacking the `key` member raises `KeyError`
inside the `ztn_logger.debug("Collection Key: %s", collection["key"])`
argument, evaluated before the shape check, so `fetch_collections`
propagates the exception instead of skipping the entry and returning the
mapping built from the well-formed ones. -/
theorem C5_malformed_collection_entry_raises :
    fetchCollections [CollEntry.dict none (some (CollData.dict (some (pyStr "A"))))] =
      Except.error PyErr.keyError ∧
    fetchCollections [CollEntry.dict (some (pyStr "k1")) (some (CollData.dict (some (pyStr "AI"))))] =
      Except.ok [(pyStr "k1", pyStr "AI")] := by
  constructor
  · rfl
  · rfl

/-! ## Claim C1: a reference absent from the destination -/

/-- A well-formed reference titled `"X"` with no collections. -/
def refX : SrcItem :=
  .item (some { title := some (pyStr "X"), collections := .ids [], creators := [],
                abstractNote := none, dateModified := none, accessDate := none,
                date := none })

/-- C1.  Against an empty destination, the locate step does return absent,
but the run then issues a page-update request — a PATCH against the URL
built from the stringified `(None, None)` tuple — and never a
page-creation request: `add_reference_to_notion` binds the whole tuple
returned by `find_reference_in_notion` to `page_id`, and a 2-tuple is
always truthy, so the update branch is taken and the POST that would
create the page is dead code. -/
theorem C1_locate_absent_takes_update_path_not_create :
    findReferenceInNotion [] (pyStr "X") [] = ((none, none), false) ∧
    syncAllReferences [refX] [] [] ⟨[]⟩ =
      Except.ok { actions := [SyncAction.updateReq (pyStr "(None, None)")], pages := [],
                  outcomes := [ItemOutcome.added (pyStr "X")] } := by
  constructor
  · rfl
  · rfl

/-! ## Claim C6: per-item failure handling in the sync loop -/

/-- A reference whose `data.collections` is JSON `null`: the loop calls
`format_collection_names` on it outside the `try` block and `len(None)`
raises `TypeError`. -/
def refNullCollections : SrcItem :=
  .item (some { title := some (pyStr "A"), collections := .nullVal, creators := [],
                abstractNote := none, dateModified := none, accessDate := none,
                date := none })

/-- C6 counterexample.  A reference with a JSON-`null` `collections` field
aborts the whole run with an uncaught `TypeError` — raised by
`format_collection_names`, which runs before the per-item `try` block — and
the following reference is never processed, contradicting the claim that
every per-item failure is caught and the loop proceeds. -/
theorem C6_counterexample_null_collections_aborts_run :
    syncAllReferences [refNullCollections, refX] [] [] ⟨[]⟩ =
      Except.error PyErr.typeError := by
  rfl

/-- A source item that never raises outside the per-item `try` block: it is
not a non-dictionary (on which the loop's guard raises `TypeError`), and if
it passes the title guard its `collections` field is a JSON array (so
`format_collection_names`, called before the `try`, cannot raise). -/
def itemLoopSafe : SrcItem → Bool
  | .pyNone => true
  | .notDict => false
  | .item none => true
  | .item (some d) =>
    d.title.isNone ||
      (match d.collections with
       | .ids _ => true
       | .nullVal => false)

/-- Number of references that pass the loop's guard (a dictionary with a
`data` dictionary containing `title`): exactly these produce an outcome
log line. -/
def countGuardPassing (items : List SrcItem) : Nat :=
  items.countP fun it =>
    match it with
    | .item (some d) => d.title.isSome
    | _ => false

theorem formatCollectionNames_ids_ok (l : List PyStr) (cols : List (PyStr × PyStr)) :
    ∃ names, formatCollectionNames (.ids l) cols = .ok names := by
  rw [formatCollectionNames]
  split
  · exact ⟨_, rfl⟩
  · exact ⟨_, rfl⟩

theorem syncStep_safe (env : SyncEnv) (cols : List (PyStr × PyStr)) (st : SyncResult)
    (it : SrcItem) (h : itemLoopSafe it = true) :
    ∃ st', syncStep env cols st it = .ok st' ∧
      st'.outcomes.length = st.outcomes.length +
        (match it with
         | .item (some d) => if d.title.isSome then 1 else 0
         | _ => 0) := by
  cases it with
  | pyNone => exact ⟨st, rfl, by simp⟩
  | notDict => cases h
  | item o =>
    cases o with
    | none => exact ⟨st, rfl, by simp⟩
    | some d =>
      cases ht : d.title with
      | none => exact ⟨st, by rw [syncStep, ht], by simp [ht]⟩
      | some t =>
        have hcoll : ∃ l, d.collections = .ids l := by
          rw [itemLoopSafe] at h
          cases hc : d.collections with
          | ids l => exact ⟨l, rfl⟩
          | nullVal => rw [ht, hc] at h; simp at h
        obtain ⟨l, hl⟩ := hcoll
        obtain ⟨names, hnames⟩ := formatCollectionNames_ids_ok l cols
        have hstep : syncStep env cols st (SrcItem.item (some d)) =
            (match syncTryBody env st d t names with
             | .error _ =>
               Except.ok { st with outcomes := st.outcomes ++ [.failedCaught t] }
             | .ok (acts, pages2, oc) =>
               Except.ok { actions := st.actions ++ acts, pages := pages2,
                           outcomes := st.outcomes ++ [oc] }) := by
          simp only [syncStep, ht, hl, bind, Except.bind, hnames]
        cases htry : syncTryBody env st d t names with
        | error e =>
          rw [htry] at hstep
          exact ⟨_, hstep, by simp [ht]⟩
        | ok triple =>
          obtain ⟨acts, pages2, oc⟩ := triple
          rw [htry] at hstep
          exact ⟨_, hstep, by simp [ht]⟩

/-- C6 amended.  Failures raised inside the per-item `try` block —
locate/staleness/update/add, including injected destination-write
failures — are caught and logged, and the loop proceeds: for any
environment, a run over references that cannot raise in the unguarded
region completes normally and produces exactly one outcome per reference
that passes the title guard.  However, a failure in the collection-name
resolution step (e.g. a JSON-`null` `collections` field) or a
non-dictionary reference occurs outside the handler and aborts the run. -/
theorem C6_amended_try_block_failures_caught (items : List SrcItem)
    (cols : List (PyStr × PyStr)) (pages : List NotionPage) (env : SyncEnv)
    (hsafe : ∀ it ∈ items, itemLoopSafe it = true) :
    ∃ r, syncAllReferences items cols pages env = Except.ok r ∧
      r.outcomes.length = countGuardPassing items := by
  suffices hgen : ∀ (l : List SrcItem) (st : SyncResult),
      (∀ it ∈ l, itemLoopSafe it = true) →
      ∃ r, List.foldlM (syncStep env cols) st l = .ok r ∧
        r.outcomes.length = st.outcomes.length + countGuardPassing l by
    obtain ⟨r, hr, hlen⟩ := hgen items ⟨[], pages, []⟩ hsafe
    exact ⟨r, hr, by simpa using hlen⟩
  intro l
  induction l with
  | nil => exact fun st _ => ⟨st, rfl, by simp [countGuardPassing]⟩
  | cons e rest ih =>
    intro st hall
    obtain ⟨st', hst', hlen'⟩ := syncStep_safe env cols st e (hall e (by simp))
    obtain ⟨r, hr, hlen⟩ := ih st' (fun it hit => hall it (by simp [hit]))
    refine ⟨r, ?_, ?_⟩
    · rw [List.foldlM_cons, hst']
      simpa using hr
    · rw [hlen, hlen']
      simp only [countGuardPassing, List.countP_cons]
      cases e with
      | pyNone => simp
      | notDict => simp
      | item o =>
        cases o with
        | none => simp
        | some d =>
          cases htt : d.title with
          | none => simp [htt]
          | some t => simp [htt]; omega

/-- Witness for C6's amended claim: a concrete run with an injected
destination-write failure on the matched page still completes, producing
one outcome per guarded reference. -/
theorem C6_amended_witness :
    ∃ r, syncAllReferences [refX] []
        [{ id := pyStr "p1", title := pyStr "X", collections := [],
           modifiedDate := some (pyStr "2024-01-01") }] ⟨[pyStr "p1"]⟩ = Except.ok r ∧
      r.outcomes.length = countGuardPassing [refX] :=
  C6_amended_try_block_failures_caught [refX] []
    [{ id := pyStr "p1", title := pyStr "X", collections := [],
       modifiedDate := some (pyStr "2024-01-01") }] ⟨[pyStr "p1"]⟩ (by decide)

/-! ## Claim C2: idempotence of the second run -/

/-- A destination page matching `refX`, with a stored Modified Date. -/
def pageX : NotionPage :=
  { id := pyStr "p1", title := pyStr "X", collections := [],
    modifiedDate := some (pyStr "2024-01-01") }

/-- C2 counterexample.  A source with one reference titled `"X"` whose
`dateModified` is absent, against a destination already holding the
matching page: the first run updates it (fail-safe staleness) and leaves
the destination state unchanged, so the second run — against an unchanged
source — updates it again: the second run performs a destination write. -/
theorem C2_counterexample_second_run_still_writes :
    ∃ r1 r2,
      syncAllReferences [refX] [] [pageX] ⟨[]⟩ = Except.ok r1 ∧
      syncAllReferences [refX] [] r1.pages ⟨[]⟩ = Except.ok r2 ∧
      r2.actions ≠ [] := by
  refine ⟨{ actions := [SyncAction.updateReq (pyStr "p1")], pages := [pageX],
            outcomes := [ItemOutcome.updated (pyStr "X")] },
          { actions := [SyncAction.updateReq (pyStr "p1")], pages := [pageX],
            outcomes := [ItemOutcome.updated (pyStr "X")] }, ?_, ?_, ?_⟩
  · rfl
  · rfl
  · decide

theorem dtLtNaive_same_fields (y m d h mi s : Nat) (t1 t2 : Option Int) :
    dtLtNaive ⟨y, m, d, h, mi, s, t1⟩ ⟨y, m, d, h, mi, s, t2⟩ = false := by
  simp [dtLtNaive]

theorem dateLt_irrefl (x : PyDate) : dateLt x x = false := by
  simp [dateLt]

theorem strptime_ne_nil_fullTz (s : PyStr) (d : PyDateTime)
    (h : strptimeFullTz s = some d) : s.isEmpty = false := by
  cases s with
  | nil => cases h
  | cons a r => rfl

theorem strptime_ne_nil_dateOnly (s : PyStr) (d : PyDateTime)
    (h : strptimeDateOnly s = some d) : s.isEmpty = false := by
  cases s with
  | nil => cases h
  | cons a r => rfl

/-- Source timestamps in the full-offset or plain-date formats normalize
through `parse_date(·, include_time=True)` to a value the staleness
evaluator judges up to date against the source itself. -/
theorem shouldUpdate_of_normalized (dm : PyStr)
    (h : (strptimeFullTz dm).isSome = true ∨ (strptimeDateOnly dm).isSome = true) :
    ∃ nd, parseDate dm true = some nd ∧ shouldUpdateReference (some nd) dm = false := by
  cases hf : strptimeFullTz dm with
  | some d0 =>
    obtain ⟨hv, htz⟩ := strptimeFullTz_spec dm d0 hf
    refine ⟨strftimeDateTime d0, ?_, ?_⟩
    · rw [parseDate, strptime_ne_nil_fullTz dm d0 hf, if_neg (by simp), hf]
      rfl
    · rw [shouldUpdateReference]
      rw [if_neg]
      · simp only [Option.getD_some]
        simp [parseNotionDate, strftimeDateTime_roundtrip d0 hv, parseZoteroDate, hf,
          strftimeDateTime_contains_T d0, strptimeFullTz_contains_T dm d0 hf, htz,
          pyDtGt, dtLtNaive]
        intro h2
        simp [dateLt, PyDateTime.dateOf]
      · simp [pyStrTruthy, strftimeDateTime_ne_nil d0, strptime_ne_nil_fullTz dm d0 hf,
          List.isEmpty_iff]
  | none =>
    have hdo : ∃ d0, strptimeDateOnly dm = some d0 := by
      rcases h with h | h
      · rw [hf] at h; cases h
      · cases hdo : strptimeDateOnly dm with
        | some d0 => exact ⟨d0, rfl⟩
        | none => rw [hdo] at h; cases h
    obtain ⟨d0, hdo⟩ := hdo
    obtain ⟨hv, hh, hmi, hs, htz⟩ := strptimeDateOnly_spec dm d0 hdo
    have hT : dm.contains 'T' = false := strptimeDateOnly_not_contains_T dm d0 hdo
    have hdtT : strptimeDateTimeT dm = none := by
      cases h2 : strptimeDateTimeT dm with
      | none => rfl
      | some d1 =>
        rw [strptimeDateTimeT_contains_T dm d1 h2] at hT
        cases hT
    refine ⟨strftimeDate d0, ?_, ?_⟩
    · rw [parseDate, strptime_ne_nil_dateOnly dm d0 hdo, if_neg (by simp), hf, hdo]
    · rw [shouldUpdateReference]
      rw [if_neg]
      · simp only [Option.getD_some]
        simp [parseNotionDate, strptimeDateTimeT_strftimeDate d0 hv,
          strftimeDate_roundtrip d0 hv, parseZoteroDate, hf, hdtT, hdo,
          strftimeDate_not_contains_T d0 hv, htz, PyDateTime.dateOf, dateLt]
        intro hmem hmem2
        have hcm : List.contains (strftimeDate d0) 'T' = true := List.elem_iff.mpr hmem
        rw [strftimeDate_not_contains_T d0 hv] at hcm
        cases hcm
      · simp [pyStrTruthy, strftimeDate_ne_nil d0, strptime_ne_nil_dateOnly dm d0 hdo,
          List.isEmpty_iff]

/-- The collection names the loop computes for a reference whose
`collections` field is a JSON array. -/
def collNamesOf (cols : List (PyStr × PyStr)) (d : ItemData) : List PyStr :=
  match d.collections with
  | .ids l => if l.length > 0 then l.map (fun cid => assocGetD cols cid) else []
  | .nullVal => []

theorem formatCollectionNames_eq_collNamesOf (cols : List (PyStr × PyStr)) (d : ItemData)
    (l : List PyStr) (hl : d.collections = .ids l) :
    formatCollectionNames d.collections cols = .ok (collNamesOf cols d) := by
  simp only [hl, formatCollectionNames, collNamesOf]
  split <;> simp_all

/-- The server-side filter used when locating reference `d`. -/
def matchFn (cols : List (PyStr × PyStr)) (d : ItemData) : NotionPage → Bool :=
  pageMatchesPayload (buildSearchPayload (d.title.getD []) (collNamesOf cols d))

theorem find_eq_of_filter_eq (s1 s2 : List NotionPage) (t : PyStr) (names : List PyStr)
    (h : s1.filter (pageMatchesPayload (buildSearchPayload t names)) =
         s2.filter (pageMatchesPayload (buildSearchPayload t names))) :
    findReferenceInNotion s1 t names = findReferenceInNotion s2 t names := by
  rw [findReferenceInNotion, findReferenceInNotion, h]

/-- Write requests issued while processing one guarded reference. -/
def stepActions (cols : List (PyStr × PyStr)) (d : ItemData)
    (pages : List NotionPage) : List SyncAction :=
  let fr := findReferenceInNotion pages (d.title.getD []) (collNamesOf cols d)
  if pyStrTruthy fr.1.1 then
    if shouldUpdateReference fr.1.2 (d.dateModified.getD []) then
      [.updateReq (fr.1.1.getD [])]
    else []
  else
    (addReferenceToNotion pages d (collNamesOf cols d) deadFreshId).1

/-- Destination state after processing one guarded reference. -/
def stepPages (cols : List (PyStr × PyStr)) (d : ItemData)
    (pages : List NotionPage) : List NotionPage :=
  let fr := findReferenceInNotion pages (d.title.getD []) (collNamesOf cols d)
  if pyStrTruthy fr.1.1 then
    if shouldUpdateReference fr.1.2 (d.dateModified.getD []) then
      updateReferenceInNotion pages (fr.1.1.getD []) d (collNamesOf cols d)
    else pages
  else
    (addReferenceToNotion pages d (collNamesOf cols d) deadFreshId).2

/-- Outcome logged for one guarded reference. -/
def stepOutcome (cols : List (PyStr × PyStr)) (d : ItemData)
    (pages : List NotionPage) : ItemOutcome :=
  let fr := findReferenceInNotion pages (d.title.getD []) (collNamesOf cols d)
  if pyStrTruthy fr.1.1 then
    if shouldUpdateReference fr.1.2 (d.dateModified.getD []) then
      .updated (d.title.getD [])
    else .upToDate (d.title.getD [])
  else .added (d.title.getD [])

theorem syncStep_char (cols : List (PyStr × PyStr)) (st : SyncResult) (d : ItemData)
    (t : PyStr) (l : List PyStr) (ht : d.title = some t) (hl : d.collections = .ids l) :
    syncStep ⟨[]⟩ cols st (.item (some d)) =
      .ok ⟨st.actions ++ stepActions cols d st.pages, stepPages cols d st.pages,
           st.outcomes ++ [stepOutcome cols d st.pages]⟩ := by
  have hnames := formatCollectionNames_eq_collNamesOf cols d l hl
  have hbody : syncTryBody ⟨[]⟩ st d t (collNamesOf cols d) =
      .ok (stepActions cols d st.pages, stepPages cols d st.pages,
           stepOutcome cols d st.pages) := by
    rw [syncTryBody, stepActions, stepPages, stepOutcome, ht]
    by_cases htr : pyStrTruthy
        (findReferenceInNotion st.pages t (collNamesOf cols d)).1.1 = true
    · by_cases hsu : shouldUpdateReference
          (findReferenceInNotion st.pages t (collNamesOf cols d)).1.2
          (d.dateModified.getD []) = true
      · simp [htr, hsu, List.contains]
      · simp [htr, hsu]
    · simp [htr, addReferenceToNotion, pyPairTruthy, List.contains, ht]
  rw [syncStep, ht]
  simp only [bind, Except.bind, hnames, hbody]

/-- Destination state after a run over `datas`, as a pure fold. -/
def runPages (cols : List (PyStr × PyStr)) (datas : List ItemData)
    (pages : List NotionPage) : List NotionPage :=
  datas.foldl (fun pgs d => stepPages cols d pgs) pages

/-- Write requests issued by a run over `datas`. -/
def runActions (cols : List (PyStr × PyStr)) : List ItemData → List NotionPage → List SyncAction
  | [], _ => []
  | d :: rest, pages => stepActions cols d pages ++ runActions cols rest (stepPages cols d pages)

theorem syncAll_char (cols : List (PyStr × PyStr)) (datas : List ItemData)
    (hW : ∀ d ∈ datas, (∃ t, d.title = some t) ∧ (∃ l, d.collections = .ids l)) :
    ∀ st : SyncResult,
      ∃ ocs, List.foldlM (syncStep ⟨[]⟩ cols) st (datas.map (fun d => SrcItem.item (some d))) =
        .ok ⟨st.actions ++ runActions cols datas st.pages, runPages cols datas st.pages,
             st.outcomes ++ ocs⟩ := by
  induction datas with
  | nil =>
    intro st
    refine ⟨[], ?_⟩
    show Except.ok st = _
    cases st
    simp [runActions, runPages]
  | cons d rest ih =>
    intro st
    obtain ⟨⟨t, ht⟩, ⟨l, hl⟩⟩ := hW d (by simp)
    have hstep := syncStep_char cols st d t l ht hl
    obtain ⟨ocs, hrest⟩ := ih (fun e he => hW e (by simp [he]))
      ⟨st.actions ++ stepActions cols d st.pages, stepPages cols d st.pages,
       st.outcomes ++ [stepOutcome cols d st.pages]⟩
    refine ⟨stepOutcome cols d st.pages :: ocs, ?_⟩
    rw [List.map_cons, List.foldlM_cons, hstep]
    simp only [bind, Except.bind]
    rw [hrest]
    simp [runActions, runPages]

theorem filter_map_ite {α : Type} (f : α → Bool) (g : α → α) (c : α → Bool) :
    ∀ s : List α, (∀ x ∈ s, c x = true → f x = false ∧ f (g x) = false) →
      (s.map (fun x => if c x then g x else x)).filter f = s.filter f
  | [], _ => rfl
  | x :: rest, h => by
    have hrest := filter_map_ite f g c rest (fun y hy => h y (by simp [hy]))
    cases hc : c x with
    | false =>
      simp only [List.map_cons, hc, Bool.false_eq_true, if_false, List.filter_cons, hrest]
    | true =>
      obtain ⟨hfx, hfgx⟩ := h x (by simp) hc
      simp only [List.map_cons, hc, if_true, List.filter_cons, hfx, hfgx,
        Bool.false_eq_true, hrest]
      simp

theorem update_map_id (pages : List NotionPage) (pid : PyStr) (d : ItemData)
    (names : List PyStr) :
    (updateReferenceInNotion pages pid d names).map NotionPage.id =
      pages.map NotionPage.id := by
  rw [updateReferenceInNotion, List.map_map]
  apply List.map_congr_left
  intro p _
  by_cases hp : p.id = pid <;> simp [hp, patchPage]

theorem update_map_title (pages : List NotionPage) (pid : PyStr) (d : ItemData)
    (names : List PyStr) :
    (updateReferenceInNotion pages pid d names).map NotionPage.title =
      pages.map NotionPage.title := by
  rw [updateReferenceInNotion, List.map_map]
  apply List.map_congr_left
  intro p _
  by_cases hp : p.id = pid <;> simp [hp, patchPage]

theorem matchFn_title (cols : List (PyStr × PyStr)) (d : ItemData) (p : NotionPage)
    (h : matchFn cols d p = true) : p.title = d.title.getD [] := by
  rw [matchFn, pageMatchesPayload] at h
  simp only [Bool.and_eq_true, beq_iff_eq] at h
  exact h.1

theorem matchFn_patchPage (cols : List (PyStr × PyStr)) (d : ItemData) (p : NotionPage)
    (h : matchFn cols d p = true) :
    matchFn cols d (patchPage d (collNamesOf cols d) p) = true := by
  have ht : p.title = d.title.getD [] := matchFn_title cols d p h
  rw [matchFn, pageMatchesPayload, buildSearchPayload]
  cases hfe : (collNamesOf cols d).filter (fun n => !n.isEmpty) with
  | nil => simp [patchPage, hfe, ht]
  | cons n fs =>
    simp only [hfe, List.isEmpty_cons, Bool.false_eq_true, if_false]
    simp only [Bool.and_eq_true, beq_iff_eq]
    refine ⟨by simp [patchPage, ht], ?_⟩
    simp only [patchPage, hfe]
    exact List.any_eq_true.mpr ⟨n, by simp, by simp⟩

theorem find_truthy (pages : List NotionPage) (t : PyStr) (names : List PyStr)
    (h : pyStrTruthy (findReferenceInNotion pages t names).1.1 = true) :
    ∃ P rest, pages.filter (pageMatchesPayload (buildSearchPayload t names)) = P :: rest ∧
      (findReferenceInNotion pages t names).1 = (some P.id, P.modifiedDate) ∧
      P.id ≠ [] := by
  rw [findReferenceInNotion] at *
  cases hf : pages.filter (pageMatchesPayload (buildSearchPayload t names)) with
  | nil =>
    rw [hf] at h
    simp [pyStrTruthy] at h
  | cons P rest =>
    rw [hf] at h
    refine ⟨P, rest, rfl, rfl, ?_⟩
    simp only [pyStrTruthy, Bool.not_eq_true'] at h
    intro hnil
    rw [hnil] at h
    cases h

theorem nodup_split_id (l1 : List NotionPage) (P : NotionPage) (l2 : List NotionPage)
    (hnd : ((l1 ++ P :: l2).map NotionPage.id).Nodup) :
    (∀ x ∈ l1, (x.id == P.id) = false) ∧ (∀ x ∈ l2, (x.id == P.id) = false) := by
  rw [List.map_append, List.map_cons, List.nodup_middle, List.nodup_cons] at hnd
  obtain ⟨hmem, -⟩ := hnd
  rw [List.mem_append] at hmem
  push_neg at hmem
  constructor
  · intro x hx
    rw [beq_eq_false_iff_ne]
    intro he
    exact hmem.1 (by rw [← he]; exact List.mem_map_of_mem _ hx)
  · intro x hx
    rw [beq_eq_false_iff_ne]
    intro he
    exact hmem.2 (by rw [← he]; exact List.mem_map_of_mem _ hx)

theorem update_split (l1 : List NotionPage) (P : NotionPage) (l2 : List NotionPage)
    (d : ItemData) (names : List PyStr)
    (hl1 : ∀ x ∈ l1, (x.id == P.id) = false) (hl2 : ∀ x ∈ l2, (x.id == P.id) = false) :
    updateReferenceInNotion (l1 ++ P :: l2) P.id d names =
      l1 ++ patchPage d names P :: l2 := by
  rw [updateReferenceInNotion, List.map_append, List.map_cons]
  congr 1
  · have h1 : ∀ x ∈ l1,
        (fun p => if p.id == P.id then patchPage d names p else p) x = id x := by
      intro x hx
      simp [hl1 x hx]
    rw [List.map_congr_left h1, List.map_id]
  · congr 1
    · simp
    · have h2 : ∀ x ∈ l2,
          (fun p => if p.id == P.id then patchPage d names p else p) x = id x := by
        intro x hx
        simp [hl2 x hx]
      rw [List.map_congr_left h2, List.map_id]

/-- Reference `d` is up to date in destination state `pages`: the locator
finds it and the staleness evaluator declines the update. -/
def silentFor (cols : List (PyStr × PyStr)) (d : ItemData) (pages : List NotionPage) : Prop :=
  pyStrTruthy (findReferenceInNotion pages (d.title.getD []) (collNamesOf cols d)).1.1 = true ∧
  shouldUpdateReference
    (findReferenceInNotion pages (d.title.getD []) (collNamesOf cols d)).1.2
    (d.dateModified.getD []) = false

theorem matchFn_def (cols : List (PyStr × PyStr)) (d : ItemData) :
    matchFn cols d =
      pageMatchesPayload (buildSearchPayload (d.title.getD []) (collNamesOf cols d)) := rfl

theorem silent_step_identity (cols : List (PyStr × PyStr)) (d : ItemData)
    (pages : List NotionPage) (h : silentFor cols d pages) :
    stepActions cols d pages = [] ∧ stepPages cols d pages = pages := by
  obtain ⟨htr, hsu⟩ := h
  constructor
  · rw [stepActions]
    simp only [htr, if_true, hsu, Bool.false_eq_true, if_false]
  · rw [stepPages]
    simp only [htr, if_true, hsu, Bool.false_eq_true, if_false]

theorem run_silent (cols : List (PyStr × PyStr)) :
    ∀ (datas : List ItemData) (pages : List NotionPage),
      (∀ d ∈ datas, silentFor cols d pages) →
      runActions cols datas pages = [] ∧ runPages cols datas pages = pages
  | [], pages, _ => ⟨rfl, rfl⟩
  | d :: rest, pages, h => by
    obtain ⟨hact, hpg⟩ := silent_step_identity cols d pages (h d (by simp))
    obtain ⟨ha, hp⟩ := run_silent cols rest pages (fun e he => h e (by simp [he]))
    constructor
    · rw [runActions, hact, hpg, ha]
      rfl
    · rw [runPages, List.foldl_cons, hpg]
      exact hp

theorem step_establishes_silence (cols : List (PyStr × PyStr)) (d : ItemData)
    (s : List NotionPage)
    (hnd : (s.map NotionPage.id).Nodup)
    (htr : pyStrTruthy
      (findReferenceInNotion s (d.title.getD []) (collNamesOf cols d)).1.1 = true)
    (hdm : (strptimeFullTz (d.dateModified.getD [])).isSome = true ∨
           (strptimeDateOnly (d.dateModified.getD [])).isSome = true) :
    silentFor cols d (stepPages cols d s) ∧
    (∀ f : NotionPage → Bool, (∀ p, f p = true → p.title ≠ d.title.getD []) →
      (stepPages cols d s).filter f = s.filter f) ∧
    (stepPages cols d s).map NotionPage.id = s.map NotionPage.id ∧
    (stepPages cols d s).map NotionPage.title = s.map NotionPage.title := by
  by_cases hsu : shouldUpdateReference
      (findReferenceInNotion s (d.title.getD []) (collNamesOf cols d)).1.2
      (d.dateModified.getD []) = true
  case neg =>
    have hstep : stepPages cols d s = s := by
      rw [stepPages]
      simp [htr, hsu]
    rw [hstep]
    exact ⟨⟨htr, by rw [Bool.not_eq_true] at hsu; exact hsu⟩,
           fun f _ => rfl, rfl, rfl⟩
  case pos =>
    obtain ⟨P, rest, hfilter, hfr, hPid⟩ :=
      find_truthy s (d.title.getD []) (collNamesOf cols d) htr
    have hpid : (findReferenceInNotion s (d.title.getD []) (collNamesOf cols d)).1.1.getD []
        = P.id := by rw [hfr]; rfl
    have hstep : stepPages cols d s =
        updateReferenceInNotion s P.id d (collNamesOf cols d) := by
      rw [stepPages]
      simp [htr, hsu, hpid]
    obtain ⟨l1, l2, hs, hl1f, hPm, hl2f⟩ := List.filter_eq_cons_iff.mp
      (by rw [← matchFn_def] at hfilter; exact hfilter)
    have hnds : ((l1 ++ P :: l2).map NotionPage.id).Nodup := by rw [← hs]; exact hnd
    obtain ⟨hid1, hid2⟩ := nodup_split_id l1 P l2 hnds
    have hupd : updateReferenceInNotion s P.id d (collNamesOf cols d) =
        l1 ++ patchPage d (collNamesOf cols d) P :: l2 := by
      rw [hs]
      exact update_split l1 P l2 d (collNamesOf cols d) hid1 hid2
    obtain ⟨nd, hpd, hsu2⟩ := shouldUpdate_of_normalized (d.dateModified.getD []) hdm
    have hfilter' : (l1 ++ patchPage d (collNamesOf cols d) P :: l2).filter (matchFn cols d)
        = patchPage d (collNamesOf cols d) P :: l2.filter (matchFn cols d) := by
      rw [List.filter_append, List.filter_cons]
      rw [List.filter_eq_nil_iff.mpr (fun x hx => by simp [hl1f x hx])]
      simp only [matchFn_patchPage cols d P hPm, if_pos, List.nil_append]
    have hrest : l2.filter (matchFn cols d) = rest := hl2f
    have hfind' : findReferenceInNotion (stepPages cols d s) (d.title.getD [])
        (collNamesOf cols d) =
        ((some P.id, some nd),
          decide (((l1 ++ patchPage d (collNamesOf cols d) P :: l2).filter
            (matchFn cols d)).length > 1)) := by
      rw [hstep, hupd]
      simp only [findReferenceInNotion]
      rw [← matchFn_def, hfilter', hrest]
      have hidp : (patchPage d (collNamesOf cols d) P).id = P.id := rfl
      have hmdp : (patchPage d (collNamesOf cols d) P).modifiedDate = some nd := by
        rw [patchPage]
        simp [hpd]
      simp [hidp, hmdp]
    refine ⟨?_, ?_, ?_, ?_⟩
    · rw [silentFor, hfind']
      refine ⟨by simp [pyStrTruthy, List.isEmpty_iff, hPid], hsu2⟩
    · intro f hf
      rw [hstep, updateReferenceInNotion]
      apply filter_map_ite
      intro x hx hcx
      have hxP : x = P := by
        rw [hs] at hx
        rcases List.mem_append.mp hx with hx1 | hx2
        · rw [hid1 x hx1] at hcx; cases hcx
        · rcases List.mem_cons.mp hx2 with rfl | hx3
          · rfl
          · rw [hid2 x hx3] at hcx; cases hcx
      subst hxP
      have hTitle : x.title = d.title.getD [] := matchFn_title cols d x hPm
      constructor
      · cases hfx : f x with
        | false => rfl
        | true => exact absurd hTitle (hf x hfx)
      · cases hfx : f (patchPage d (collNamesOf cols d) x) with
        | false => rfl
        | true =>
          have : (patchPage d (collNamesOf cols d) x).title = d.title.getD [] := hTitle
          exact absurd this (hf _ hfx)
    · rw [hstep]
      exact update_map_id s P.id d (collNamesOf cols d)
    · rw [hstep]
      exact update_map_title s P.id d (collNamesOf cols d)

/-- The hypotheses of the amended idempotence claim for one reference:
present title, array-valued collections, a `dateModified` in one of the
round-tripping formats (full timestamp with UTC offset, or plain calendar
date), and an existing destination match. -/
def goodData (cols : List (PyStr × PyStr)) (pages0 : List NotionPage) (d : ItemData) : Bool :=
  d.title.isSome &&
  (match d.collections with
   | .ids _ => true
   | .nullVal => false) &&
  ((strptimeFullTz (d.dateModified.getD [])).isSome ||
   (strptimeDateOnly (d.dateModified.getD [])).isSome) &&
  pyStrTruthy (findReferenceInNotion pages0 (d.title.getD []) (collNamesOf cols d)).1.1

theorem silentFor_of_filter_eq (cols : List (PyStr × PyStr)) (d : ItemData)
    (s1 s2 : List NotionPage)
    (hf : s1.filter (matchFn cols d) = s2.filter (matchFn cols d))
    (h : silentFor cols d s2) : silentFor cols d s1 := by
  rw [silentFor] at *
  rw [find_eq_of_filter_eq s1 s2 _ _ (by rw [← matchFn_def]; exact hf)]
  exact h

theorem run1_establishes_silence (cols : List (PyStr × PyStr)) (pages0 : List NotionPage)
    (hnd0 : (pages0.map NotionPage.id).Nodup) :
    ∀ (datas : List ItemData) (s : List NotionPage),
      s.map NotionPage.id = pages0.map NotionPage.id →
      s.map NotionPage.title = pages0.map NotionPage.title →
      (∀ d ∈ datas, goodData cols pages0 d = true) →
      (∀ d ∈ datas, s.filter (matchFn cols d) = pages0.filter (matchFn cols d)) →
      (datas.map ItemData.title).Nodup →
      (∀ d ∈ datas, silentFor cols d (runPages cols datas s)) ∧
      (∀ f : NotionPage → Bool,
        (∀ d ∈ datas, ∀ p, f p = true → p.title ≠ d.title.getD []) →
        (runPages cols datas s).filter f = s.filter f) ∧
      (runPages cols datas s).map NotionPage.id = pages0.map NotionPage.id ∧
      (runPages cols datas s).map NotionPage.title = pages0.map NotionPage.title := by
  intro datas
  induction datas with
  | nil =>
    intro s hid htitle _ _ _
    exact ⟨fun d hd => absurd hd (List.not_mem_nil d), fun f _ => rfl, hid, htitle⟩
  | cons d rest ih =>
    intro s hid htitle hgood hfresh htit
    have hgd := hgood d (by simp)
    rw [goodData] at hgd
    simp only [Bool.and_eq_true] at hgd
    obtain ⟨⟨⟨htisome, hcoll⟩, hdm'⟩, htr0⟩ := hgd
    have hdm : (strptimeFullTz (d.dateModified.getD [])).isSome = true ∨
        (strptimeDateOnly (d.dateModified.getD [])).isSome = true := by
      rcases Bool.or_eq_true_iff.mp hdm' with h | h
      · exact Or.inl h
      · exact Or.inr h
    have htrS : pyStrTruthy
        (findReferenceInNotion s (d.title.getD []) (collNamesOf cols d)).1.1 = true := by
      rw [find_eq_of_filter_eq s pages0 _ _
        (by rw [← matchFn_def]; exact hfresh d (by simp))]
      exact htr0
    have hndS : (s.map NotionPage.id).Nodup := by rw [hid]; exact hnd0
    obtain ⟨hsil, hforeign, hids', htitles'⟩ :=
      step_establishes_silence cols d s hndS htrS hdm
    have hTitleNe : ∀ e ∈ rest, d.title.getD [] ≠ e.title.getD [] := by
      intro e he
      have hne : d.title ≠ e.title := by
        rw [List.map_cons, List.nodup_cons] at htit
        intro hcontra
        exact htit.1 (hcontra ▸ List.mem_map_of_mem _ he)
      obtain ⟨td, htd⟩ := Option.isSome_iff_exists.mp htisome
      have hesome : e.title.isSome = true := by
        have hge := hgood e (by simp [he])
        rw [goodData] at hge
        simp only [Bool.and_eq_true] at hge
        exact hge.1.1.1
      obtain ⟨te, hte⟩ := Option.isSome_iff_exists.mp hesome
      rw [htd, hte]
      simp only [Option.getD_some]
      intro hcontra
      exact hne (by rw [htd, hte, hcontra])
    have hfresh' : ∀ e ∈ rest,
        (stepPages cols d s).filter (matchFn cols e) = pages0.filter (matchFn cols e) := by
      intro e he
      rw [hforeign (matchFn cols e) ?_]
      · exact hfresh e (by simp [he])
      · intro p hp
        rw [matchFn_title cols e p hp]
        exact fun hcontra => hTitleNe e he hcontra.symm
    have htit' : (rest.map ItemData.title).Nodup := by
      rw [List.map_cons, List.nodup_cons] at htit
      exact htit.2
    obtain ⟨hsilRest, hforeignRest, hidF, htitleF⟩ :=
      ih (stepPages cols d s) (hids'.trans hid) (htitles'.trans htitle)
        (fun e he => hgood e (by simp [he])) hfresh' htit'
    have hrunEq : runPages cols (d :: rest) s = runPages cols rest (stepPages cols d s) := by
      rw [runPages, List.foldl_cons]
      rfl
    refine ⟨?_, ?_, ?_, ?_⟩
    · intro e he
      rcases List.mem_cons.mp he with rfl | heRest
      · rw [hrunEq]
        apply silentFor_of_filter_eq cols e _ (stepPages cols e s) ?_ hsil
        apply hforeignRest
        intro e' he' p hp
        rw [matchFn_title cols e p hp]
        exact hTitleNe e' he'
      · rw [hrunEq]
        exact hsilRest e heRest
    · intro f hf
      rw [hrunEq, hforeignRest f (fun e' he' p hp => hf e' (by simp [he']) p hp),
        hforeign f (fun p hp => hf d (by simp) p hp)]
    · rw [hrunEq]
      exact hidF
    · rw [hrunEq]
      exact htitleF

/-- C2 amended.  Running the full sync twice in succession against an
unchanged source performs zero destination write requests on the second
run, provided every reference bears a distinct title, an array-valued
`collections` field, a `dateModified` that is a full timestamp with UTC
offset or a plain calendar date, and an existing matching destination
record (destination page identifiers being distinct).  Without such
provisos the claim fails — see the counterexample: a reference with an
absent `dateModified`, or one missing from the destination (which the
create bug never adds), is written on every run. -/
theorem C2_amended_second_run_performs_no_writes (cols : List (PyStr × PyStr))
    (datas : List ItemData) (pages : List NotionPage)
    (hnd : (pages.map NotionPage.id).Nodup)
    (htit : (datas.map ItemData.title).Nodup)
    (hgood : ∀ d ∈ datas, goodData cols pages d = true) :
    ∃ r1 r2,
      syncAllReferences (datas.map (fun d => SrcItem.item (some d))) cols pages ⟨[]⟩ =
        Except.ok r1 ∧
      syncAllReferences (datas.map (fun d => SrcItem.item (some d))) cols r1.pages ⟨[]⟩ =
        Except.ok r2 ∧
      r2.actions = [] := by
  have hW : ∀ d ∈ datas, (∃ t, d.title = some t) ∧ (∃ l, d.collections = .ids l) := by
    intro d hd
    have hgd := hgood d hd
    rw [goodData] at hgd
    simp only [Bool.and_eq_true] at hgd
    refine ⟨Option.isSome_iff_exists.mp hgd.1.1.1, ?_⟩
    cases hc : d.collections with
    | ids l => exact ⟨l, rfl⟩
    | nullVal => rw [hc] at hgd; simp at hgd
  obtain ⟨ocs1, h1⟩ := syncAll_char cols datas hW ⟨[], pages, []⟩
  obtain ⟨hsilent, -, -, -⟩ := run1_establishes_silence cols pages hnd datas pages
    rfl rfl hgood (fun d _ => rfl) htit
  obtain ⟨ocs2, h2⟩ := syncAll_char cols datas hW ⟨[], runPages cols datas pages, []⟩
  obtain ⟨hact2, hpg2⟩ := run_silent cols datas (runPages cols datas pages) hsilent
  rw [hact2, hpg2] at h2
  exact ⟨⟨runActions cols datas pages, runPages cols datas pages, ocs1⟩,
         ⟨[], runPages cols datas pages, ocs2⟩, h1, h2, rfl⟩

/-- A reference whose `dateModified` is a full timestamp with UTC offset. -/
def refY : ItemData :=
  { title := some (pyStr "Y"), collections := .ids [], creators := [],
    abstractNote := none, dateModified := some (pyStr "2024-03-05T10:11:12+00:00"),
    accessDate := none, date := none }

/-- A destination page matching `refY`. -/
def pageY : NotionPage :=
  { id := pyStr "p2", title := pyStr "Y", collections := [],
    modifiedDate := some (pyStr "2020-01-01") }

/-- Witness for C2's amended claim: one reference with a full-offset
`dateModified` and a matching destination page; the theorem yields a
first run followed by a write-free second run. -/
theorem C2_amended_witness :
    ∃ r1 r2,
      syncAllReferences [SrcItem.item (some refY)] [] [pageY] ⟨[]⟩ = Except.ok r1 ∧
      syncAllReferences [SrcItem.item (some refY)] [] r1.pages ⟨[]⟩ = Except.ok r2 ∧
      r2.actions = [] :=
  C2_amended_second_run_performs_no_writes [] [refY] [pageY]
    (by decide) (by decide) (by decide)

/-- Witness for C8 at a concrete full-offset timestamp and at an
unmatched input. -/
theorem C8_parse_date_witness :
    parseDate (pyStr "2023-05-15T13:34:41+00:00") true =
      some (pyStr "2023-05-15T13:34:41") ∧
    parseDate (pyStr "May 2023") false = none := by
  constructor
  · have h := C8_parse_date_spec.2.1 (pyStr "2023-05-15T13:34:41+00:00") true
      ⟨2023, 5, 15, 13, 34, 41, some 0⟩ (by decide)
    exact h.trans (by decide)
  · exact C8_parse_date_spec.2.2.2.2.2.1 (pyStr "May 2023") false rfl rfl rfl rfl

/-- A reference with a short abstract. -/
def refShortAbstract : ItemData :=
  { title := none, collections := .ids [], creators := [],
    abstractNote := some (pyStr "short abstract"), dateModified := none,
    accessDate := none, date := none }

/-- Witness for C9 at a reference whose abstract is within the limit. -/
theorem C9_process_abstract_witness :
    processAbstract refShortAbstract = pyStr "short abstract" :=
  (C9_process_abstract_spec refShortAbstract).1 (by decide)

/-- Witness for C10: one successful page followed by a failing page yields
the empty list. -/
theorem C10_fetch_failure_witness :
    fetchZoteroReference [ZoteroPage.ok [refX] true, ZoteroPage.httpError] = [] :=
  C10_fetch_failure_discards_all [ZoteroPage.ok [refX] true] ZoteroPage.httpError [] []
    (by intro p hp
        simp only [List.mem_singleton] at hp
        exact ⟨[refX], hp⟩)
    (Or.inl rfl)
